import Mathlib

/-!
# Verification of the node-banana schema resolver and generation orchestrator

Shallow embedding of the two API routes of the repository:

* `src/app/api/models/[modelId]/route.ts` — schema fetching, reference
  resolution, parameter/input classification, sorting, and the TTL cache.
* `src/app/api/generate/route.ts` — input-name mapping, provider payload
  construction, the Replicate polling loop, media-size normalization, and
  the response shaping of the POST handler.

JavaScript strings are modelled as Lean `String`; the character-level
operations (`includes`, `startsWith`, `endsWith`, `toLowerCase`,
`localeCompare`) are re-implemented over `List Char` so that concrete
instances evaluate by `decide`.  `localeCompare` is modelled as code-point
lexicographic comparison, which agrees with it on the ASCII identifiers the
routes handle.  JSON values reachable from the schemas are modelled by the
inductive `JVal`; `Option` encodes presence vs. `undefined`.
-/

/-- JSON-like scalar values as they occur in schema documents (defaults and
enum elements).  The routes only copy such values opaquely, so scalars
suffice; enums are lists of these. -/
inductive JVal where
  | jnull
  | jbool (b : Bool)
  | jnum (n : Int)
  | jstr (s : String)
deriving DecidableEq, Repr

/-- Lower-case an ASCII letter, leave every other character unchanged
(model of the per-character effect of JS `toLowerCase` on ASCII input). -/
def lcChar (c : Char) : Char :=
  if 65 ≤ c.toNat ∧ c.toNat ≤ 90 then Char.ofNat (c.toNat + 32) else c

/-- Upper-case an ASCII letter, leave every other character unchanged. -/
def ucChar (c : Char) : Char :=
  if 97 ≤ c.toNat ∧ c.toNat ≤ 122 then Char.ofNat (c.toNat - 32) else c

/-- Lower-case every character of a character list. -/
def lowerL : List Char → List Char
  | [] => []
  | c :: cs => lcChar c :: lowerL cs

/-- `isPrefixL pat l` is true when `pat` is a prefix of `l`. -/
def isPrefixL : List Char → List Char → Bool
  | [], _ => true
  | _ :: _, [] => false
  | a :: as, b :: bs => a = b && isPrefixL as bs

/-- `isInfixL needle hay`: does `needle` occur contiguously inside `hay`?
Model of JS `String.prototype.includes`. -/
def isInfixL (needle : List Char) : List Char → Bool
  | [] => needle.isEmpty
  | c :: rest => isPrefixL needle (c :: rest) || isInfixL needle rest

/-- Code-point lexicographic strict order on character lists. -/
def ltL : List Char → List Char → Bool
  | [], [] => false
  | [], _ :: _ => true
  | _ :: _, [] => false
  | a :: as, b :: bs => a.toNat < b.toNat || (a.toNat = b.toNat && ltL as bs)

/-- JS `hay.includes(needle)`. -/
def strIncludes (hay needle : String) : Bool :=
  isInfixL needle.data hay.data

/-- JS `hay.startsWith(pre)`. -/
def strStartsWith (hay pre : String) : Bool :=
  isPrefixL pre.data hay.data

/-- JS `hay.endsWith(suffix)`. -/
def strEndsWith (hay suffix : String) : Bool :=
  isPrefixL suffix.data.reverse hay.data.reverse

/-- JS `s.toLowerCase()` (ASCII model). -/
def strToLower (s : String) : String :=
  String.mk (lowerL s.data)

/-- `a.localeCompare(b) <= 0`, modelled as code-point order. -/
def strLe (a b : String) : Bool :=
  !(ltL b.data a.data)

/-- JS truthiness of a possibly-undefined string: defined and non-empty. -/
def truthyStr : Option String → Bool
  | some s => s ≠ ""
  | none => false

/-- JS `a || d` for possibly-undefined strings. -/
def jsOrStr (a : Option String) (d : String) : String :=
  match a with
  | some s => if s = "" then d else s
  | none => d

/-- Association-list lookup (model of JS object / `Map` key access). -/
def assocLookup {β : Type} (k : String) : List (String × β) → Option β
  | [] => none
  | (k', v) :: rest => if k' = k then some v else assocLookup k rest

/-- Association-list update: replace an existing key in place, append a new
one (model of JS object property assignment / `Map.set`). -/
def assocSet {β : Type} (k : String) (v : β) : List (String × β) → List (String × β)
  | [] => [(k, v)]
  | (k', v') :: rest => if k' = k then (k', v) :: rest else (k', v') :: assocSet k v rest

/-- Stable insertion of one element into a list sorted by the boolean
comparator `le` (the element is placed after every entry `b` with `le b a`). -/
def insertSorted {α : Type} (le : α → α → Bool) (a : α) : List α → List α
  | [] => [a]
  | b :: bs => if le b a then b :: insertSorted le a bs else a :: b :: bs

/-- Stable sort by a boolean comparator; model of JS `Array.prototype.sort`
with a comparator that is a total preorder (the routes' comparators are). -/
def sortByComparator {α : Type} (le : α → α → Bool) : List α → List α
  | [] => []
  | a :: as => insertSorted le a (sortByComparator le as)

/-! ## src/app/api/models/[modelId]/route.ts — constants and classifiers -/

/-- Image input property patterns (route.ts lines 30-42). -/
def IMAGE_INPUT_PATTERNS : List String :=
  ["image_url", "image", "first_frame", "last_frame", "tail_image_url",
   "start_image", "end_image", "reference_image", "init_image", "mask_image",
   "control_image"]

/-- Text input properties (route.ts line 45). -/
def TEXT_INPUT_NAMES : List String := ["prompt", "negative_prompt"]

/-- Parameters to filter out — internal/system params (route.ts lines 48-58). -/
def EXCLUDED_PARAMS : List String :=
  ["webhook", "webhook_events_filter", "sync_mode", "disable_safety_checker",
   "go_fast", "enable_safety_checker", "output_format", "output_quality",
   "request_id"]

/-- Parameters we want to surface, user-relevant (route.ts lines 61-77). -/
def PRIORITY_PARAMS : List String :=
  ["seed", "num_inference_steps", "inference_steps", "steps", "guidance_scale",
   "guidance", "negative_prompt", "width", "height", "num_outputs",
   "num_images", "scheduler", "strength", "cfg_scale", "lora_scale"]

/-- Drop a trailing `_url` (model of `.replace(/_url$/, "")`). -/
def dropUrlSuffix (s : String) : String :=
  if strEndsWith s "_url" then String.mk (s.data.take (s.data.length - 4)) else s

/-- Is the character a JS word character (`\w` = letter, digit or underscore)? -/
def isWordChar (c : Char) : Bool :=
  (65 ≤ c.toNat ∧ c.toNat ≤ 90) || (97 ≤ c.toNat ∧ c.toNat ≤ 122) ||
    (48 ≤ c.toNat ∧ c.toNat ≤ 57) || c = '_'

/-- Upper-case each character that starts a word, tracking whether the
previous character was a word character (model of `.replace(/\b\w/g, ...)`). -/
def capWordsAux (prevWord : Bool) : List Char → List Char
  | [] => []
  | c :: cs =>
      (if isWordChar c ∧ ¬prevWord then ucChar c else c) ::
        capWordsAux (isWordChar c) cs

/-- Convert property name to human-readable label (route.ts `toLabel`). -/
def toLabel (name : String) : String :=
  String.mk (capWordsAux false
    (((dropUrlSuffix name).data.map (fun c => if c = '_' then ' ' else c))))

/-- Check if property is an image input (route.ts `isImageInput`):
exact pattern, `_`-suffix pattern, or (case-sensitive) containment of
`"image"`. -/
def isImageInput (name : String) : Bool :=
  IMAGE_INPUT_PATTERNS.any fun pattern =>
    name = pattern || strEndsWith name ("_" ++ pattern) || strIncludes name "image"

/-- Check if property is a text input (route.ts `isTextInput`). -/
def isTextInput (name : String) : Bool :=
  TEXT_INPUT_NAMES.contains name

/-! ## Schema data model (the fields the route reads) -/

/-- A resolved component definition: the four fields `convertSchemaProperty`
reads from a `$ref` target. -/
structure SchemaDef where
  type : Option String
  enum : Option (List JVal)
  default : Option JVal
  description : Option String
deriving DecidableEq, Repr

/-- One element of a property's `allOf` list: either a `$ref` or a direct
`enum` (the two shapes the route inspects). -/
structure AllOfItem where
  ref : Option String
  enum : Option (List JVal)
deriving DecidableEq, Repr

/-- A raw schema property, restricted to the fields the route reads. -/
structure SchemaProp where
  type : Option String
  allOf : Option (List AllOfItem)
  enum : Option (List JVal)
  default : Option JVal
  description : Option String
  minimum : Option Int
  maximum : Option Int
deriving DecidableEq, Repr

/-- Normalized parameter descriptor (`ModelParameter` of lib/providers/types). -/
structure ModelParameter where
  name : String
  type : String
  description : Option String
  default : Option JVal
  required : Bool
  minimum : Option Int
  maximum : Option Int
  enum : Option (List JVal)
deriving DecidableEq, Repr

/-- Graph-connectable input descriptor (`ModelInput` of lib/providers/types). -/
structure ModelInput where
  name : String
  type : String
  required : Bool
  label : String
  description : Option String
deriving DecidableEq, Repr

/-- The `#/components/schemas/` reference path head. -/
def REF_PATH_HEAD : String := "#/components/schemas/"

/-- Resolve a `$ref` reference (route.ts `resolveRef`): the reference must
match `^#\/components\/schemas\/(.+)$`, the captured name is looked up in the
components table; any failure yields `none`. -/
def resolveRef (ref : String) (schemaComponents : List (String × SchemaDef)) :
    Option SchemaDef :=
  if strStartsWith ref REF_PATH_HEAD ∧ REF_PATH_HEAD.data.length < ref.data.length then
    assocLookup (String.mk (ref.data.drop REF_PATH_HEAD.data.length)) schemaComponents
  else
    none

/-- Mutable locals of the `allOf` loop in `convertSchemaProperty`
(`type`, `enumValues`, `resolvedDefault`, `resolvedDescription`). -/
structure AllOfState where
  type : String
  enumValues : Option (List JVal)
  resolvedDefault : Option JVal
  resolvedDescription : Option String
deriving DecidableEq, Repr

/-- One iteration of the `allOf` loop (route.ts lines 169-196): resolve the
item's `$ref` and, if it resolves, possibly overwrite `type` and `enumValues`
while filling `resolvedDefault` and `resolvedDescription` only when still
unset; an item without `$ref` but with a direct `enum` overwrites
`enumValues`. -/
def allOfStep (schemaComponents : List (String × SchemaDef))
    (st : AllOfState) (item : AllOfItem) : AllOfState :=
  match item.ref with
  | some itemRef =>
      match resolveRef itemRef schemaComponents with
      | some resolved =>
          { type :=
              if resolved.type = some "integer" then "integer"
              else if resolved.type = some "number" then "number"
              else if resolved.type = some "boolean" then "boolean"
              else st.type
            enumValues :=
              match resolved.enum with
              | some e => some e
              | none => st.enumValues
            resolvedDefault :=
              if resolved.default.isSome ∧ st.resolvedDefault = none then
                resolved.default
              else st.resolvedDefault
            resolvedDescription :=
              if truthyStr resolved.description ∧ ¬truthyStr st.resolvedDescription then
                resolved.description
              else st.resolvedDescription }
      | none => st
  | none =>
      match item.enum with
      | some e => { st with enumValues := some e }
      | none => st

/-- Convert an OpenAPI schema property to a `ModelParameter`
(route.ts `convertSchemaProperty`); `none` for excluded parameters. -/
def convertSchemaProperty (name : String) (prop : SchemaProp)
    (required : List String)
    (schemaComponents : Option (List (String × SchemaDef))) :
    Option ModelParameter :=
  if EXCLUDED_PARAMS.contains name then
    none
  else
    let st0 : AllOfState := ⟨"string", none, none, none⟩
    let st :=
      if prop.type = some "integer" then { st0 with type := "integer" }
      else if prop.type = some "number" then { st0 with type := "number" }
      else if prop.type = some "boolean" then { st0 with type := "boolean" }
      else if prop.type = some "array" then { st0 with type := "array" }
      else
        match prop.allOf, schemaComponents with
        | some allOf, some comps =>
            if 0 < allOf.length then allOf.foldl (allOfStep comps) st0 else st0
        | _, _ => st0
    some
      { name := name
        type := st.type
        description :=
          if truthyStr prop.description then prop.description
          else st.resolvedDescription
        default :=
          if prop.default.isSome then prop.default else st.resolvedDefault
        required := required.contains name
        minimum := prop.minimum
        maximum := prop.maximum
        enum :=
          match prop.enum with
          | some e => some e
          | none => st.enumValues }

/-- An input schema object: `properties` (in source order) and `required`. -/
structure InputSchema where
  properties : Option (List (String × SchemaProp))
  required : Option (List String)
deriving DecidableEq, Repr

/-- Extraction result (`ExtractedSchema` of the route). -/
structure ExtractedSchema where
  parameters : List ModelParameter
  inputs : List ModelInput
deriving DecidableEq, Repr

/-- The property-classification loop of `extractParametersFromSchema`
(route.ts lines 361-390), preserving source order of each output list. -/
def collectProps (required : List String)
    (schemaComponents : Option (List (String × SchemaDef))) :
    List (String × SchemaProp) → List ModelParameter × List ModelInput
  | [] => ([], [])
  | (name, prop) :: rest =>
      let tail := collectProps required schemaComponents rest
      if isImageInput name then
        (tail.1,
         ⟨name, "image", required.contains name, toLabel name, prop.description⟩
           :: tail.2)
      else if isTextInput name then
        (tail.1,
         ⟨name, "text", required.contains name, toLabel name, prop.description⟩
           :: tail.2)
      else
        match convertSchemaProperty name prop required schemaComponents with
        | some param => (param :: tail.1, tail.2)
        | none => tail

/-- The parameter comparator of route.ts lines 393-399, as a boolean
`comparator(a,b) <= 0` relation: priority parameters sort before all others;
within a group, by name. -/
def paramLe (a b : ModelParameter) : Bool :=
  let aIsPriority := PRIORITY_PARAMS.contains a.name
  let bIsPriority := PRIORITY_PARAMS.contains b.name
  if aIsPriority && !bIsPriority then true
  else if !aIsPriority && bIsPriority then false
  else strLe a.name b.name

/-- The input comparator of route.ts lines 402-406: required before optional,
then image before text, then by name. -/
def inputLe (a b : ModelInput) : Bool :=
  if a.required ≠ b.required then a.required
  else if a.type ≠ b.type then a.type = "image"
  else strLe a.name b.name

/-- Extract `ModelParameter`s and `ModelInput`s from an OpenAPI schema
object (route.ts `extractParametersFromSchema`): classify every property in
source order, then sort both lists with the route's comparators. -/
def extractParametersFromSchema (schema : InputSchema)
    (schemaComponents : Option (List (String × SchemaDef))) : ExtractedSchema :=
  let required := schema.required.getD []
  match schema.properties with
  | none => ⟨[], []⟩
  | some properties =>
      let collected := collectProps required schemaComponents properties
      ⟨sortByComparator paramLe collected.1, sortByComparator inputLe collected.2⟩

/-! ## Schema cache and GET handler (route.ts lines 26-27 and 411-488) -/

/-- A cached schema extraction (`schemaCache` entry). -/
structure CacheEntry where
  parameters : List ModelParameter
  inputs : List ModelInput
  timestamp : Nat
deriving DecidableEq, Repr

/-- Cache TTL: 10 minutes in milliseconds (route.ts line 27). -/
def CACHE_TTL : Nat := 10 * 60 * 1000

/-- Response of the schema GET handler: success carries the two lists and the
`cached` flag with status 200; failure carries a status and message. -/
inductive GetResponse where
  | success (parameters : List ModelParameter) (inputs : List ModelInput) (cached : Bool)
  | failure (status : Nat) (error : String)
deriving DecidableEq, Repr

/-- Outcome of the provider schema fetch performed on a cache miss: the
extraction result, or a thrown transport/HTTP error caught by the handler. -/
inductive FetchOutcome where
  | ok (result : ExtractedSchema)
  | thrown (msg : String)
deriving DecidableEq, Repr

/-- The fetch-and-store path of the GET handler (route.ts lines 447-487):
a Replicate request without `X-Replicate-Key` is a 401 before any fetch;
a successful fetch is stored under the key with the current time and answered
`cached: false`; a thrown fetch is a 500 and the cache is left unchanged. -/
def getRouteFetch (provider : String) (hasReplicateKey : Bool) (now : Nat)
    (cache : List (String × CacheEntry)) (cacheKey : String)
    (fetch : FetchOutcome) : GetResponse × List (String × CacheEntry) :=
  if provider = "replicate" ∧ ¬hasReplicateKey then
    (.failure 401 "Replicate API key required. Include X-Replicate-Key header.",
     cache)
  else
    match fetch with
    | .ok result =>
        (.success result.parameters result.inputs false,
         assocSet cacheKey ⟨result.parameters, result.inputs, now⟩ cache)
    | .thrown msg => (.failure 500 msg, cache)

/-- The schema GET handler (route.ts `GET`): validate the provider, then
serve from the cache when the stored entry is younger than `CACHE_TTL`,
otherwise fall through to the fetch path.  `now` stands for `Date.now()`;
`fetch` is the outcome the provider fetcher would produce. -/
def getRoute (provider : String) (decodedModelId : String)
    (hasReplicateKey : Bool) (now : Nat) (cache : List (String × CacheEntry))
    (fetch : FetchOutcome) : GetResponse × List (String × CacheEntry) :=
  if ¬(provider = "replicate" ∨ provider = "fal") then
    (.failure 400 "Invalid or missing provider. Use ?provider=replicate or ?provider=fal",
     cache)
  else
    let cacheKey := provider ++ ":" ++ decodedModelId
    match assocLookup cacheKey cache with
    | some cached =>
        if now - cached.timestamp < CACHE_TTL then
          (.success cached.parameters cached.inputs true, cache)
        else
          getRouteFetch provider hasReplicateKey now cache cacheKey fetch
    | none => getRouteFetch provider hasReplicateKey now cache cacheKey fetch

/-! ## src/app/api/generate/route.ts — input mapping -/

/-- Input parameter patterns (generate/route.ts lines 234-259): generic
semantic names mapped to ordered candidate literal names. -/
def INPUT_PATTERNS : List (String × List String) :=
  [("prompt", ["prompt", "text", "caption", "input_text", "description", "query"]),
   ("negativePrompt", ["negative_prompt", "negative", "neg_prompt", "negative_text"]),
   ("image", ["image_url", "image", "first_frame", "start_image", "init_image",
              "reference_image", "input_image", "source_image", "img", "photo"]),
   ("aspectRatio", ["aspect_ratio", "ratio", "size", "dimensions", "output_size"]),
   ("duration", ["duration", "length", "num_frames", "seconds", "video_length"]),
   ("fps", ["fps", "frame_rate", "framerate", "frames_per_second"]),
   ("audio", ["audio_enabled", "with_audio", "enable_audio", "audio", "sound"]),
   ("seed", ["seed", "random_seed", "noise_seed"]),
   ("steps", ["steps", "num_steps", "num_inference_steps", "inference_steps"]),
   ("guidance", ["guidance_scale", "guidance", "cfg_scale", "cfg"]),
   ("scheduler", ["scheduler", "sampler", "sampler_name"]),
   ("strength", ["strength", "denoise", "denoising_strength"])]

/-- The case-insensitive bidirectional substring fallback for one candidate
(generate/route.ts lines 298-301): the first declared property name that
contains the candidate or is contained in it, case aside. -/
def substrCandidateMatch (propertyNames : List String) (pattern : String) :
    Option String :=
  propertyNames.find? fun name =>
    strIncludes (strToLower name) (strToLower pattern) ||
      strIncludes (strToLower pattern) (strToLower name)

/-- The per-generic-name candidate scan (generate/route.ts lines 291-306):
for each candidate in order, an exact property-name match is tried first,
then the substring fallback for that same candidate; the first success wins.
(The exact test `properties[pattern]` is property existence; schema property
values are objects, hence truthy.) -/
def findPatternMatch (propertyNames : List String) : List String → Option String
  | [] => none
  | pattern :: rest =>
      if propertyNames.contains pattern then some pattern
      else
        match substrCandidateMatch propertyNames pattern with
        | some m => some m
        | none => findPatternMatch propertyNames rest

/-- Extract input parameter mappings from the schema's declared property
names (generate/route.ts `getInputMappingFromSchema`, and identically
`getFalInputMapping`): resolve each generic name of `INPUT_PATTERNS` in
order. -/
def getInputMappingFromSchema (propertyNames : List String) :
    List (String × String) :=
  INPUT_PATTERNS.filterMap fun gp =>
    (findPatternMatch propertyNames gp.2).map fun m => (gp.1, m)

/-! ## Generation data model and provider payload construction -/

/-- One normalized output record of a provider adapter. -/
structure GenOutputItem where
  type : String
  data : String
  url : String
deriving DecidableEq, Repr

/-- Adapter result (`GenerationOutput` of lib/providers/types). -/
structure GenerationOutput where
  success : Bool
  error : Option String
  outputs : Option (List GenOutputItem)
deriving DecidableEq, Repr

/-- JS `paramMap[k] || d`: the mapped name when present and non-empty,
otherwise the default field name. -/
def mappedKey (paramMap : List (String × String)) (k d : String) : String :=
  jsOrStr (assocLookup k paramMap) d

/-- The fallback (no `dynamicInputs`) payload construction shared by the two
HTTP adapters, parametrized by the default image field name: spread
`input.parameters`, place the prompt and the FIRST image under their mapped
names, then re-add every parameter under its mapped name
(generate/route.ts lines 363-403 with default `"image"`, and lines 650-697
with default `"image_url"`). -/
def buildProviderPayload (defaultImageKey : String)
    (paramMap : List (String × String)) (prompt : String)
    (images : List String) (parameters : List (String × JVal)) :
    List (String × JVal) :=
  let base := parameters.foldl (fun acc kv => assocSet kv.1 kv.2 acc) []
  let base :=
    if prompt ≠ "" then
      assocSet (mappedKey paramMap "prompt" "prompt") (JVal.jstr prompt) base
    else base
  let base :=
    match images with
    | [] => base
    | img0 :: _ => assocSet (mappedKey paramMap "image" defaultImageKey) (JVal.jstr img0) base
  parameters.foldl (fun acc kv => assocSet (mappedKey paramMap kv.1 kv.1) kv.2 acc) base

/-- Replicate prediction input in the no-`dynamicInputs` path
(generate/route.ts lines 363-403; default image field `"image"`). -/
def buildReplicatePredictionInput (paramMap : List (String × String))
    (prompt : String) (images : List String)
    (parameters : List (String × JVal)) : List (String × JVal) :=
  buildProviderPayload "image" paramMap prompt images parameters

/-- fal.ai request body in the no-`dynamicInputs` path
(generate/route.ts lines 650-697; default image field `"image_url"`). -/
def buildFalRequestBody (paramMap : List (String × String))
    (prompt : String) (images : List String)
    (parameters : List (String × JVal)) : List (String × JVal) :=
  buildProviderPayload "image_url" paramMap prompt images parameters

/-! ## Replicate adapter: creation errors and the polling loop -/

/-- The non-2xx branch of the Replicate prediction creation
(generate/route.ts lines 424-446): a 429 is answered with the fixed
rate-limit message, anything else surfaces the parsed error detail; both are
prefixed with the model's display name and carry `success: false`.
(The JSON error-envelope parsing that produces `errorDetail` is taken as a
parameter.) -/
def replicateCreateError (modelName : String) (status : Nat)
    (errorDetail : String) : GenerationOutput :=
  if status = 429 then
    ⟨false, some (modelName ++ ": Rate limit exceeded. Try again in a moment."), none⟩
  else
    ⟨false, some (modelName ++ ": " ++ errorDetail), none⟩

/-- The non-2xx branch of the fal.ai request (generate/route.ts lines
725-767), with the key-dependent remediation hint on 429. -/
def falHttpError (modelName : String) (hasApiKey : Bool) (status : Nat)
    (errorDetail : String) : GenerationOutput :=
  if status = 429 then
    ⟨false, some (modelName ++ ": Rate limit exceeded. " ++
      (if hasApiKey then "Try again in a moment."
       else "Add an API key in settings for higher limits.")), none⟩
  else
    ⟨false, some (modelName ++ ": " ++ errorDetail), none⟩

/-- A Replicate prediction as read by the poll loop. -/
structure Prediction where
  status : String
  error : Option String
deriving DecidableEq, Repr

/-- Terminal prediction statuses (the negation of the loop condition at
generate/route.ts lines 457-461). -/
def isTerminalStatus (s : String) : Bool :=
  s = "succeeded" || s = "failed" || s = "canceled"

/-- Poll ceiling: 5 minutes in milliseconds (generate/route.ts line 451). -/
def maxWaitTime : Nat := 5 * 60 * 1000

/-- Poll interval: 1 second (generate/route.ts line 452); the model keeps the
constant but leaves real time to the elapsed-time trace. -/
def pollInterval : Nat := 1000

/-- One observed poll iteration: the HTTP status-fetch either fails or yields
the next prediction. -/
inductive PollOutcome where
  | ok (p : Prediction)
  | httpError (status : Nat)
deriving DecidableEq, Repr

/-- Exit of the poll loop. -/
inductive PollExit where
  | terminal (p : Prediction)
  | timeout
  | pollFetchFailed (status : Nat)
  | exhausted
deriving DecidableEq, Repr

/-- The poll loop (generate/route.ts lines 457-489): while the current
prediction is non-terminal, first compare the elapsed wall-clock time against
the ceiling, then sleep and fetch the status once more.  The trace supplies,
for each iteration the real loop would run, the elapsed time
`Date.now() - startTime` observed at the ceiling check and the outcome of the
subsequent status fetch; `exhausted` marks a trace too short to decide the
run (the real loop would keep polling). -/
def pollLoop (cur : Prediction) : List (Nat × PollOutcome) → PollExit
  | [] => if isTerminalStatus cur.status then .terminal cur else .exhausted
  | (elapsed, out) :: rest =>
      if isTerminalStatus cur.status then .terminal cur
      else if maxWaitTime < elapsed then .timeout
      else
        match out with
        | .httpError s => .pollFetchFailed s
        | .ok next => pollLoop next rest

/-- JS `currentPrediction.error || "Prediction failed"`. -/
def failureReasonOf (p : Prediction) : String :=
  jsOrStr p.error "Prediction failed"

/-- Result of the polling phase of the Replicate adapter. -/
inductive ReplicatePollResult where
  | failure (error : String)
  | succeededWith (p : Prediction)
  | undecided
deriving DecidableEq, Repr

/-- The poll loop together with the terminal-status dispatch that follows it
(generate/route.ts lines 451-505): a ceiling overrun yields the timeout
failure naming the model; a `failed` terminal state surfaces the provider's
stated reason behind the model name; `canceled` is its own failure; a
`succeeded` prediction flows on to output extraction. -/
def replicatePollPhase (modelName : String) (initial : Prediction)
    (trace : List (Nat × PollOutcome)) : ReplicatePollResult :=
  match pollLoop initial trace with
  | .timeout =>
      .failure (modelName ++
        ": Generation timed out after 5 minutes. Video models may take longer - try again.")
  | .pollFetchFailed s => .failure ("Failed to poll prediction: " ++ toString s)
  | .exhausted => .undecided
  | .terminal p =>
      if p.status = "failed" then
        .failure (modelName ++ ": " ++ failureReasonOf p)
      else if p.status = "canceled" then
        .failure "Prediction was canceled"
      else
        .succeededWith p

/-! ## Media fetch normalization (both adapters) -/

/-- The base64 alphabet used by `Buffer.toString("base64")`. -/
def b64Alphabet : List Char :=
  "ABCDEFGHIJKLMNOPQRSTUVWXYZabcdefghijklmnopqrstuvwxyz0123456789+/".data

/-- The base64 digit for a 6-bit value. -/
def b64Char (n : Nat) : Char :=
  b64Alphabet.getD n 'A'

/-- Standard base64 encoding of a byte list (three bytes to four digits,
`=`-padded); model of `Buffer.from(buf).toString("base64")`. -/
def base64Chunks : List Nat → List Char
  | [] => []
  | [a] => [b64Char (a / 4), b64Char (a % 4 * 16), '=', '=']
  | [a, b] => [b64Char (a / 4), b64Char (a % 4 * 16 + b / 16), b64Char (b % 16 * 4), '=']
  | a :: b :: c :: rest =>
      b64Char (a / 4) :: b64Char (a % 4 * 16 + b / 16) ::
        b64Char (b % 16 * 4 + c / 64) :: b64Char (c % 64) :: base64Chunks rest

/-- Base64 encoding as a string. -/
def base64Encode (bytes : List Nat) : String :=
  String.mk (base64Chunks bytes)

/-- The 20 MB video size threshold in bytes: `mediaSizeMB > 20` with
`mediaSizeMB = byteLength / (1024 * 1024)` holds exactly when the byte length
exceeds `20 * 1024 * 1024` (the float division by a power of two and the
comparison are exact for these magnitudes). -/
def VIDEO_URL_THRESHOLD : Nat := 20 * 1024 * 1024

/-- Media normalization of the Replicate adapter (generate/route.ts lines
538-579): the content type defaults to `image/png`, the output is a video
exactly when the content type starts with `video/`, and a video larger than
the threshold is returned as its bare URL while everything else is inlined as
a base64 data URI. -/
def replicateMediaOutput (mediaUrl : String) (contentTypeHeader : Option String)
    (bytes : List Nat) : GenerationOutput :=
  let contentType := jsOrStr contentTypeHeader "image/png"
  let isVideo := strStartsWith contentType "video/"
  if isVideo ∧ VIDEO_URL_THRESHOLD < bytes.length then
    ⟨true, none, some [⟨"video", mediaUrl, mediaUrl⟩]⟩
  else
    ⟨true, none,
     some [⟨if isVideo then "video" else "image",
            "data:" ++ contentType ++ ";base64," ++ base64Encode bytes,
            mediaUrl⟩]⟩

/-- Media normalization of the fal.ai adapter (generate/route.ts lines
812-853): identical to the Replicate branch except that a video-model flag
from the response shape joins the classification and picks the `video/mp4`
content-type default. -/
def falMediaOutput (isVideoModel : Bool) (mediaUrl : String)
    (contentTypeHeader : Option String) (bytes : List Nat) : GenerationOutput :=
  let contentType :=
    jsOrStr contentTypeHeader (if isVideoModel then "video/mp4" else "image/png")
  let isVideo := strStartsWith contentType "video/" || isVideoModel
  if isVideo ∧ VIDEO_URL_THRESHOLD < bytes.length then
    ⟨true, none, some [⟨"video", mediaUrl, mediaUrl⟩]⟩
  else
    ⟨true, none,
     some [⟨if isVideo then "video" else "image",
            "data:" ++ contentType ++ ";base64," ++ base64Encode bytes,
            mediaUrl⟩]⟩

/-! ## POST /generate response shaping -/

/-- The caller-facing generation response body (`GenerateResponse`). -/
structure GenerateResponse where
  success : Bool
  error : Option String
  image : Option String
  video : Option String
  videoUrl : Option String
  contentType : Option String
deriving DecidableEq, Repr

/-- A failure body. -/
def mkErrorResponse (e : String) : GenerateResponse :=
  ⟨false, some e, none, none, none, none⟩

/-- A successful image body. -/
def mkImageResponse (d : String) : GenerateResponse :=
  ⟨true, none, some d, none, none, some "image"⟩

/-- Shaping of an HTTP-provider adapter result by the POST handler, identical
for the Replicate branch (generate/route.ts lines 963-1001) and the fal
branch (lines 1058-1096): adapter failure is a 500; a missing or falsy first
output is a 500; a video output populates exactly one of `video`/`videoUrl`
according to whether its data starts with `"http"`; an image output goes to
`image`.  Success responses carry HTTP 200. -/
def shapeProviderResult (result : GenerationOutput) : Nat × GenerateResponse :=
  if result.success = false then
    (500, mkErrorResponse (jsOrStr result.error "Generation failed"))
  else
    match result.outputs.bind List.head? with
    | none => (500, mkErrorResponse "No output in generation result")
    | some output =>
        if output.data = "" then
          (500, mkErrorResponse "No output in generation result")
        else if output.type = "video" then
          let isUrl := strStartsWith output.data "http"
          (200,
           ⟨true, none, none,
            if isUrl then none else some output.data,
            if isUrl then some output.data else none,
            some "video"⟩)
        else
          (200, mkImageResponse output.data)

/-- Outcome of the Gemini (default) path, abstracting the SDK response scan
(generate/route.ts lines 133-228). -/
inductive GeminiOutcome where
  | noCandidates
  | noParts
  | imageFound (dataUrl : String)
  | textInstead (t : String)
  | neitherFound
deriving DecidableEq, Repr

/-- JS `t.substring(0, n)`. -/
def strTake (n : Nat) (t : String) : String :=
  String.mk (t.data.take n)

/-- Response shaping of `generateWithGemini` (generate/route.ts lines
138-228): empty candidate list, missing parts, a text part instead of an
image, and an empty scan are each distinct 500 errors; an inline image is the
200 success. -/
def generateWithGeminiResponse : GeminiOutcome → Nat × GenerateResponse
  | .noCandidates => (500, mkErrorResponse "No response from AI model")
  | .noParts => (500, mkErrorResponse "No content in response")
  | .imageFound d => (200, mkImageResponse d)
  | .textInstead t =>
      (500, mkErrorResponse ("Model returned text instead of image: " ++ strTake 200 t))
  | .neitherFound => (500, mkErrorResponse "No image in response")

/-- The caller-facing request fields the POST handler's control flow reads,
together with the presence of the per-provider credential headers. -/
structure PostRequestModel where
  prompt : Option String
  images : List String
  dynamicInputs : Option (List (String × String))
  provider : Option String
  hasReplicateKey : Bool
  hasGeminiKey : Bool
deriving DecidableEq, Repr

/-- `prompt || (dynamicInputs && dynamicInputs.prompt)` (truthiness). -/
def hasPromptReq (req : PostRequestModel) : Bool :=
  truthyStr req.prompt ||
    match req.dynamicInputs with
    | some di => truthyStr (assocLookup "prompt" di)
    | none => false

/-- `images && images.length > 0`. -/
def hasImagesReq (req : PostRequestModel) : Bool :=
  !req.images.isEmpty

/-- `dynamicInputs && Object.keys(dynamicInputs).some(k => k.includes('frame') || k.includes('image'))`. -/
def hasImageInputsReq (req : PostRequestModel) : Bool :=
  match req.dynamicInputs with
  | some di => di.any fun kv => strIncludes kv.1 "frame" || strIncludes kv.1 "image"
  | none => false

/-- The POST /generate handler (generate/route.ts `POST`): validation, then
provider dispatch.  The adapter results, the Gemini outcome and a possible
thrown error message are injected; a thrown error reaches the catch block,
which answers 429 exactly when the message contains `"429"` and 500 otherwise
(the appended detail text is elided from the model).  Replicate without its
key header is a 401; a missing Gemini key is a 500. -/
def postRoute (req : PostRequestModel)
    (replicateResult falResult : GenerationOutput) (gemini : GeminiOutcome)
    (thrown : Option String) : Nat × GenerateResponse :=
  match thrown with
  | some msg =>
      if strIncludes msg "429" then
        (429, mkErrorResponse "Rate limit reached. Please wait and try again.")
      else
        (500, mkErrorResponse msg)
  | none =>
      if ¬(hasPromptReq req ∨ hasImagesReq req ∨ hasImageInputsReq req) then
        (400, mkErrorResponse "Prompt or image input is required")
      else
        let provider := req.provider.getD "gemini"
        if provider = "replicate" then
          if ¬req.hasReplicateKey then
            (401, mkErrorResponse
              "Replicate API key not provided. Include X-Replicate-API-Key header.")
          else
            shapeProviderResult replicateResult
        else if provider = "fal" then
          shapeProviderResult falResult
        else
          if ¬req.hasGeminiKey then
            (500, mkErrorResponse
              "API key not configured. Add GEMINI_API_KEY to .env.local or configure in Settings.")
          else
            generateWithGeminiResponse gemini

/-! ## Helper functions for stating the allOf merge direction (claim C2) -/

/-- First-defined choice on options (JS `a !== undefined ? a : b`). -/
def optOr {α : Type} : Option α → Option α → Option α
  | some x, _ => some x
  | none, y => y

/-- The definition an `allOf` item resolves to, if its `$ref` resolves. -/
def resolvedOf (schemaComponents : List (String × SchemaDef))
    (item : AllOfItem) : Option SchemaDef :=
  match item.ref with
  | some r => resolveRef r schemaComponents
  | none => none

/-- The numeric/boolean type a resolved definition supplies to the `allOf`
loop, if any (only `integer`, `number` and `boolean` are picked up there). -/
def numTypeOf (d : SchemaDef) : Option String :=
  if d.type = some "integer" then some "integer"
  else if d.type = some "number" then some "number"
  else if d.type = some "boolean" then some "boolean"
  else none

/-- The type one `allOf` item supplies. -/
def typeSupplied (schemaComponents : List (String × SchemaDef))
    (item : AllOfItem) : Option String :=
  (resolvedOf schemaComponents item).bind numTypeOf

/-- The enum one `allOf` item supplies: through its resolved `$ref`, or its
own direct `enum` when it has no `$ref`. -/
def enumSupplied (schemaComponents : List (String × SchemaDef))
    (item : AllOfItem) : Option (List JVal) :=
  match item.ref with
  | some r => (resolveRef r schemaComponents).bind (·.enum)
  | none => item.enum

/-- The default one `allOf` item supplies through its resolved `$ref`. -/
def defaultSupplied (schemaComponents : List (String × SchemaDef))
    (item : AllOfItem) : Option JVal :=
  (resolvedOf schemaComponents item).bind (·.default)

/-- The description one `allOf` item supplies: only a non-empty (truthy)
description of its resolved `$ref` counts. -/
def descSupplied (schemaComponents : List (String × SchemaDef))
    (item : AllOfItem) : Option String :=
  (resolvedOf schemaComponents item).bind fun d =>
    if truthyStr d.description then d.description else none

/-- The default supplied by the FIRST resolved definition that supplies one. -/
def firstResolvedDefault (schemaComponents : List (String × SchemaDef)) :
    List AllOfItem → Option JVal
  | [] => none
  | it :: rest =>
      optOr (defaultSupplied schemaComponents it)
        (firstResolvedDefault schemaComponents rest)

/-- The description supplied by the FIRST resolved definition supplying one. -/
def firstResolvedDescription (schemaComponents : List (String × SchemaDef)) :
    List AllOfItem → Option String
  | [] => none
  | it :: rest =>
      optOr (descSupplied schemaComponents it)
        (firstResolvedDescription schemaComponents rest)

/-- The type supplied by the LAST resolved definition that supplies one. -/
def lastResolvedType (schemaComponents : List (String × SchemaDef)) :
    List AllOfItem → Option String
  | [] => none
  | it :: rest =>
      optOr (lastResolvedType schemaComponents rest)
        (typeSupplied schemaComponents it)

/-- The enum supplied by the LAST item that supplies one. -/
def lastResolvedEnum (schemaComponents : List (String × SchemaDef)) :
    List AllOfItem → Option (List JVal)
  | [] => none
  | it :: rest =>
      optOr (lastResolvedEnum schemaComponents rest)
        (enumSupplied schemaComponents it)

/-! ## Concrete fixtures for the claims' instances -/

/-- A plain integer-typed property. -/
def intProp : SchemaProp := ⟨some "integer", none, none, none, none, none, none⟩

/-- A property carrying no fields at all. -/
def emptyProp : SchemaProp := ⟨none, none, none, none, none, none, none⟩

/-- The schema of claim C1's instance: exactly the properties
`width`, `seed`, `height` (in that source order). -/
def c1Schema : InputSchema :=
  ⟨some [("width", intProp), ("seed", intProp), ("height", intProp)], some []⟩

/-- First referenced definition of claim C2's instance: an integer enum with
a default and a description. -/
def c2DefA : SchemaDef :=
  ⟨some "integer", some [JVal.jnum 1], some (JVal.jnum 7), some "first"⟩

/-- Second referenced definition of claim C2's instance, supplying every
field again with different values. -/
def c2DefB : SchemaDef :=
  ⟨some "number", some [JVal.jnum 2], some (JVal.jnum 9), some "second"⟩

/-- Components table for claim C2's instance. -/
def c2Components : List (String × SchemaDef) := [("A", c2DefA), ("B", c2DefB)]

/-- The `allOf` items of claim C2's instance: references to `A` then `B`. -/
def c2AllOfItems : List AllOfItem :=
  [⟨some "#/components/schemas/A", none⟩, ⟨some "#/components/schemas/B", none⟩]

/-- A property whose `allOf` references definitions `A` then `B` and carries
no direct scalar type, enum, default or description. -/
def c2Prop : SchemaProp :=
  ⟨none, some c2AllOfItems, none, none, none, none, none⟩

/-- The schema of claim C4's counterexample: one property named `IMAGE`
(upper case). -/
def c4Schema : InputSchema := ⟨some [("IMAGE", emptyProp)], some []⟩

/-- A schema with one lower-case `image_url` property, for claim C4's
witness. -/
def c4WitnessSchema : InputSchema := ⟨some [("image_url", emptyProp)], some []⟩

/-- A one-entry schema cache whose entry was stored at time 0, for claim
C6's witness. -/
def c6Cache : List (String × CacheEntry) := [("fal:m", ⟨[], [], 0⟩)]

/-- A non-terminal prediction, for claim C7's witness. -/
def processingPrediction : Prediction := ⟨"processing", none⟩

/-- A concrete successful video adapter result, for claim C10's witness. -/
def c10Result : GenerationOutput :=
  ⟨true, none, some [⟨"video", "http://u", "http://u"⟩]⟩

/-! ## Order lemmas for the sort comparators -/

/-- Strict code-point order is asymmetric. -/
theorem ltL_asymm : ∀ a b : List Char, ltL a b = true → ltL b a = false := by
  intro a
  induction a with
  | nil => intro b _; cases b <;> simp [ltL]
  | cons x xs ih =>
      intro b h
      cases b with
      | nil => simp [ltL] at h
      | cons y ys =>
          simp only [ltL, Bool.or_eq_true, Bool.and_eq_true, decide_eq_true_eq] at h ⊢
          rcases h with h1 | ⟨h2, h3⟩
          · have hn1 : ¬ y.toNat < x.toNat := by omega
            have hn2 : ¬ y.toNat = x.toNat := by omega
            simp [hn1, hn2]
          · have hn1 : ¬ y.toNat < x.toNat := by omega
            have hn2 : y.toNat = x.toNat := by omega
            simp [hn1, hn2, ih ys h3]

/-- Co-transitivity of strict code-point order. -/
theorem ltL_cotrans : ∀ (c a b : List Char), ltL c a = true →
    ltL c b = true ∨ ltL b a = true := by
  intro c
  induction c with
  | nil =>
      intro a b h
      cases a with
      | nil => simp [ltL] at h
      | cons y ys =>
          cases b with
          | nil => right; simp [ltL]
          | cons z zs => left; simp [ltL]
  | cons x xs ih =>
      intro a b h
      cases a with
      | nil => simp [ltL] at h
      | cons y ys =>
          cases b with
          | nil => right; simp [ltL]
          | cons z zs =>
              simp only [ltL, Bool.or_eq_true, Bool.and_eq_true, decide_eq_true_eq] at h ⊢
              rcases h with h1 | ⟨h2, h3⟩
              · by_cases hxz : x.toNat < z.toNat
                · left; left; exact hxz
                · right; left; omega
              · by_cases hxz : x.toNat < z.toNat
                · left; left; exact hxz
                · by_cases hzy : z.toNat < y.toNat
                  · right; left; exact hzy
                  · rcases ih ys zs h3 with h4 | h4
                    · left; right; exact ⟨by omega, h4⟩
                    · right; right; exact ⟨by omega, h4⟩

/-- `strLe` is total. -/
theorem strLe_total (a b : String) : strLe a b = true ∨ strLe b a = true := by
  unfold strLe
  by_cases h : ltL b.data a.data = true
  · right; simp [ltL_asymm _ _ h]
  · left; simp [Bool.eq_false_iff.mpr h]

/-- `strLe` is transitive. -/
theorem strLe_trans (a b c : String) (h1 : strLe a b = true)
    (h2 : strLe b c = true) : strLe a c = true := by
  unfold strLe at *
  by_cases h : ltL c.data a.data = true
  · rcases ltL_cotrans _ _ b.data h with h3 | h3
    · simp [h3] at h2
    · simp [h3] at h1
  · simp [Bool.eq_false_iff.mpr h]

/-- The parameter comparator is total. -/
theorem paramLe_total (a b : ModelParameter) :
    paramLe a b = true ∨ paramLe b a = true := by
  unfold paramLe
  cases ha : PRIORITY_PARAMS.contains a.name <;>
    cases hb : PRIORITY_PARAMS.contains b.name <;>
      simp [ha, hb, strLe_total a.name b.name]

/-- The parameter comparator is transitive. -/
theorem paramLe_trans (a b c : ModelParameter) (h1 : paramLe a b = true)
    (h2 : paramLe b c = true) : paramLe a c = true := by
  unfold paramLe at *
  cases ha : PRIORITY_PARAMS.contains a.name <;>
    cases hb : PRIORITY_PARAMS.contains b.name <;>
      cases hc : PRIORITY_PARAMS.contains c.name <;>
        simp_all <;> try exact strLe_trans _ _ _ h1 h2

/-- Membership in an insertion. -/
theorem mem_insertSorted {α : Type} (le : α → α → Bool) (a x : α) :
    ∀ l : List α, x ∈ insertSorted le a l ↔ x = a ∨ x ∈ l := by
  intro l
  induction l with
  | nil => simp [insertSorted]
  | cons b bs ih =>
      simp only [insertSorted]
      by_cases h : le b a = true
      · rw [if_pos h]
        simp only [List.mem_cons, ih]
        try tauto
      · rw [if_neg h]
        simp only [List.mem_cons]
        try tauto

/-- Membership is preserved by the comparator sort. -/
theorem mem_sortByComparator {α : Type} (le : α → α → Bool) (x : α) :
    ∀ l : List α, x ∈ sortByComparator le l ↔ x ∈ l := by
  intro l
  induction l with
  | nil => simp [sortByComparator]
  | cons b bs ih => simp [sortByComparator, mem_insertSorted, ih]

/-- Insertion preserves sortedness for a transitive, total comparator. -/
theorem pairwise_insertSorted {α : Type} (le : α → α → Bool)
    (htrans : ∀ x y z, le x y = true → le y z = true → le x z = true)
    (htot : ∀ x y, le x y = true ∨ le y x = true) (a : α) :
    ∀ l : List α, l.Pairwise (fun x y => le x y = true) →
      (insertSorted le a l).Pairwise (fun x y => le x y = true) := by
  intro l
  induction l with
  | nil => intro _; simp [insertSorted]
  | cons b bs ih =>
      intro h
      rw [List.pairwise_cons] at h
      obtain ⟨hb, hbs⟩ := h
      simp only [insertSorted]
      by_cases hba : le b a = true
      · rw [if_pos hba]
        rw [List.pairwise_cons]
        refine ⟨?_, ih hbs⟩
        intro y hy
        rcases (mem_insertSorted le a y bs).mp hy with rfl | hy'
        · exact hba
        · exact hb y hy'
      · rw [if_neg hba]
        have hab : le a b = true := (htot a b).resolve_right fun hh => hba hh
        rw [List.pairwise_cons]
        refine ⟨?_, by rw [List.pairwise_cons]; exact ⟨hb, hbs⟩⟩
        intro y hy
        rcases List.mem_cons.mp hy with rfl | hy'
        · exact hab
        · exact htrans a b y hab (hb y hy')

/-- The comparator sort sorts, for a transitive, total comparator. -/
theorem pairwise_sortByComparator {α : Type} (le : α → α → Bool)
    (htrans : ∀ x y z, le x y = true → le y z = true → le x z = true)
    (htot : ∀ x y, le x y = true ∨ le y x = true) :
    ∀ l : List α, (sortByComparator le l).Pairwise (fun x y => le x y = true) := by
  intro l
  induction l with
  | nil => simp [sortByComparator]
  | cons b bs ih =>
      exact pairwise_insertSorted le htrans htot b _ ih

/-! ## Characterizing the allOf loop -/

/-- `optOr` is associative. -/
theorem optOr_assoc {α : Type} (a b c : Option α) :
    optOr (optOr a b) c = optOr a (optOr b c) := by
  cases a <;> simp [optOr]

/-- `optOr` with absent right operand. -/
theorem optOr_none_right {α : Type} (a : Option α) : optOr a none = a := by
  cases a <;> simp [optOr]

/-- `getD` through `optOr`. -/
theorem optOr_getD {α : Type} (a b : Option α) (d : α) :
    (optOr a b).getD d = a.getD (b.getD d) := by
  cases a <;> simp [optOr]

/-- One step of the allOf loop on `resolvedDefault`: first-wins. -/
theorem allOfStep_resolvedDefault (comps : List (String × SchemaDef))
    (st : AllOfState) (it : AllOfItem) :
    (allOfStep comps st it).resolvedDefault =
      optOr st.resolvedDefault (defaultSupplied comps it) := by
  cases hr : it.ref with
  | none =>
      cases he : it.enum <;>
        simp [allOfStep, defaultSupplied, resolvedOf, hr, he, optOr_none_right]
  | some r =>
      cases hd : resolveRef r comps with
      | none =>
          simp [allOfStep, defaultSupplied, resolvedOf, hr, hd, optOr_none_right]
      | some d =>
          cases hsd : st.resolvedDefault <;> cases hdd : d.default <;>
            simp [allOfStep, defaultSupplied, resolvedOf, hr, hd, hsd, hdd, optOr]

/-- One step of the allOf loop on `type`: overwrite when supplied. -/
theorem allOfStep_type (comps : List (String × SchemaDef))
    (st : AllOfState) (it : AllOfItem) :
    (allOfStep comps st it).type = (typeSupplied comps it).getD st.type := by
  cases hr : it.ref with
  | none =>
      cases he : it.enum <;>
        simp [allOfStep, typeSupplied, resolvedOf, hr, he]
  | some r =>
      cases hd : resolveRef r comps with
      | none => simp [allOfStep, typeSupplied, resolvedOf, hr, hd]
      | some d =>
          by_cases h1 : d.type = some "integer"
          · simp [allOfStep, typeSupplied, resolvedOf, numTypeOf, hr, hd, h1]
          · by_cases h2 : d.type = some "number"
            · simp [allOfStep, typeSupplied, resolvedOf, numTypeOf, hr, hd, h1, h2]
            · by_cases h3 : d.type = some "boolean"
              · simp [allOfStep, typeSupplied, resolvedOf, numTypeOf, hr, hd, h1, h2, h3]
              · simp [allOfStep, typeSupplied, resolvedOf, numTypeOf, hr, hd, h1, h2, h3]

/-- One step of the allOf loop on `enumValues`: overwrite when supplied. -/
theorem allOfStep_enumValues (comps : List (String × SchemaDef))
    (st : AllOfState) (it : AllOfItem) :
    (allOfStep comps st it).enumValues =
      optOr (enumSupplied comps it) st.enumValues := by
  cases hr : it.ref with
  | none =>
      cases he : it.enum <;> simp [allOfStep, enumSupplied, hr, he, optOr]
  | some r =>
      cases hd : resolveRef r comps with
      | none => simp [allOfStep, enumSupplied, hr, hd, optOr]
      | some d =>
          cases hde : d.enum <;>
            simp [allOfStep, enumSupplied, hr, hd, hde, optOr]

/-- One step of the allOf loop on `resolvedDescription`: first truthy wins. -/
theorem allOfStep_resolvedDescription (comps : List (String × SchemaDef))
    (st : AllOfState) (it : AllOfItem) :
    (allOfStep comps st it).resolvedDescription =
      if truthyStr st.resolvedDescription = true then st.resolvedDescription
      else optOr (descSupplied comps it) st.resolvedDescription := by
  cases hr : it.ref with
  | none =>
      cases he : it.enum <;> cases h : truthyStr st.resolvedDescription <;>
        simp [allOfStep, descSupplied, resolvedOf, hr, he, h, optOr]
  | some r =>
      cases hd : resolveRef r comps with
      | none =>
          cases h : truthyStr st.resolvedDescription <;>
            simp [allOfStep, descSupplied, resolvedOf, hr, hd, h, optOr]
      | some d =>
          cases h : truthyStr st.resolvedDescription <;>
            cases h2 : truthyStr d.description <;>
              cases hdd : d.description <;>
                simp_all [allOfStep, descSupplied, resolvedOf, optOr, truthyStr]

/-- A description supplied by an item is truthy (non-empty). -/
theorem descSupplied_truthy (comps : List (String × SchemaDef))
    (it : AllOfItem) (s : String) (h : descSupplied comps it = some s) :
    truthyStr (some s) = true := by
  cases hr : it.ref with
  | none => simp [descSupplied, resolvedOf, hr] at h
  | some r =>
      cases hd : resolveRef r comps with
      | none => simp [descSupplied, resolvedOf, hr, hd] at h
      | some d =>
          simp only [descSupplied, resolvedOf, hr, hd, Option.bind] at h
          by_cases ht : truthyStr d.description = true
          · rw [if_pos ht] at h
            rw [h] at ht
            exact ht
          · rw [if_neg ht] at h
            exact absurd h (by simp)

/-- The whole allOf fold on `resolvedDefault`. -/
theorem foldl_allOfStep_resolvedDefault (comps : List (String × SchemaDef)) :
    ∀ (l : List AllOfItem) (st : AllOfState),
      (l.foldl (allOfStep comps) st).resolvedDefault =
        optOr st.resolvedDefault (firstResolvedDefault comps l) := by
  intro l
  induction l with
  | nil => intro st; simp [firstResolvedDefault, optOr_none_right]
  | cons it rest ih =>
      intro st
      simp only [List.foldl_cons, firstResolvedDefault]
      rw [ih, allOfStep_resolvedDefault, optOr_assoc]

/-- The whole allOf fold on `type`: the LAST supplied type wins. -/
theorem foldl_allOfStep_type (comps : List (String × SchemaDef)) :
    ∀ (l : List AllOfItem) (st : AllOfState),
      (l.foldl (allOfStep comps) st).type =
        (lastResolvedType comps l).getD st.type := by
  intro l
  induction l with
  | nil => intro st; simp [lastResolvedType]
  | cons it rest ih =>
      intro st
      simp only [List.foldl_cons, lastResolvedType]
      rw [ih, allOfStep_type, optOr_getD]

/-- The whole allOf fold on `enumValues`: the LAST supplied enum wins. -/
theorem foldl_allOfStep_enumValues (comps : List (String × SchemaDef)) :
    ∀ (l : List AllOfItem) (st : AllOfState),
      (l.foldl (allOfStep comps) st).enumValues =
        optOr (lastResolvedEnum comps l) st.enumValues := by
  intro l
  induction l with
  | nil => intro st; simp [lastResolvedEnum, optOr]
  | cons it rest ih =>
      intro st
      simp only [List.foldl_cons, lastResolvedEnum]
      rw [ih, allOfStep_enumValues, optOr_assoc]

/-- The whole allOf fold on `resolvedDescription`: first truthy wins. -/
theorem foldl_allOfStep_resolvedDescription (comps : List (String × SchemaDef)) :
    ∀ (l : List AllOfItem) (st : AllOfState),
      (l.foldl (allOfStep comps) st).resolvedDescription =
        if truthyStr st.resolvedDescription = true then st.resolvedDescription
        else optOr (firstResolvedDescription comps l) st.resolvedDescription := by
  intro l
  induction l with
  | nil =>
      intro st
      cases h : truthyStr st.resolvedDescription <;>
        simp [h, firstResolvedDescription, optOr]
  | cons it rest ih =>
      intro st
      simp only [List.foldl_cons, firstResolvedDescription]
      rw [ih]
      by_cases h : truthyStr st.resolvedDescription = true
      · have hstep : (allOfStep comps st it).resolvedDescription = st.resolvedDescription := by
          rw [allOfStep_resolvedDescription, if_pos h]
        rw [hstep, if_pos h, if_pos h]
      · have hstep : (allOfStep comps st it).resolvedDescription =
            optOr (descSupplied comps it) st.resolvedDescription := by
          rw [allOfStep_resolvedDescription, if_neg h]
        rw [hstep, if_neg h]
        cases hsup : descSupplied comps it with
        | none =>
            simp only [optOr]
            rw [if_neg h]
        | some s =>
            have hs : truthyStr (some s) = true := descSupplied_truthy comps it s hsup
            simp only [optOr]
            rw [if_pos hs]

/-! ## Claim C1 — parameter sort order -/

/-- What a true comparator verdict means in the spec's terms. -/
theorem paramLe_spec (a b : ModelParameter) (h : paramLe a b = true) :
    (PRIORITY_PARAMS.contains b.name = true → PRIORITY_PARAMS.contains a.name = true) ∧
    (PRIORITY_PARAMS.contains a.name = PRIORITY_PARAMS.contains b.name →
      strLe a.name b.name = true) := by
  unfold paramLe at h
  cases ha : PRIORITY_PARAMS.contains a.name <;>
    cases hb : PRIORITY_PARAMS.contains b.name <;>
      simp_all

/-- C1 (amended): in every schema extraction, parameters whose names are in
the fixed priority set sort before all others and each group is alphabetical
by name; extracting a schema whose properties are exactly
`{width, seed, height}` (none classified as inputs) yields the parameter
list `[height, seed, width]`, because `width` and `height` are also members
of the priority set, so all three fall in one alphabetical group. -/
theorem c1_parameter_priority_sort :
    (∀ (schema : InputSchema) (comps : Option (List (String × SchemaDef))),
       ((extractParametersFromSchema schema comps).parameters).Pairwise
         (fun a b =>
           (PRIORITY_PARAMS.contains b.name = true →
             PRIORITY_PARAMS.contains a.name = true) ∧
           (PRIORITY_PARAMS.contains a.name = PRIORITY_PARAMS.contains b.name →
             strLe a.name b.name = true))) ∧
    (extractParametersFromSchema c1Schema none).parameters.map (fun p => p.name) =
      ["height", "seed", "width"] ∧
    (extractParametersFromSchema c1Schema none).inputs = [] := by
  refine ⟨?_, by decide, by decide⟩
  intro schema comps
  unfold extractParametersFromSchema
  cases schema.properties with
  | none => simp
  | some props =>
      simp only
      refine List.Pairwise.imp ?_
        (pairwise_sortByComparator paramLe paramLe_trans paramLe_total _)
      intro a b h
      exact paramLe_spec a b h

/-- C1 counterexample: extracting exactly `{width, seed, height}` yields
`[height, seed, width]`, not the claimed `[seed, height, width]`. -/
theorem c1_counterexample :
    (extractParametersFromSchema c1Schema none).parameters.map (fun p => p.name) =
      ["height", "seed", "width"] ∧
    (extractParametersFromSchema c1Schema none).parameters.map (fun p => p.name) ≠
      ["seed", "height", "width"] := by
  decide

/-! ## Claim C2 — allOf merge direction -/

/-- C2 (amended): for a property with no direct scalar type whose `allOf`
is resolved against a components table, the resulting parameter's `default`
and `description` come from the FIRST resolved definition that supplies that
field, while its `type` and `enum` come from the LAST definition that
supplies that field — a later resolved definition overwrites an earlier
`type`/`enum` but never an earlier `default`/`description`. -/
theorem c2_allOf_merge_direction (name : String) (prop : SchemaProp)
    (required : List String) (comps : List (String × SchemaDef)) (l : List AllOfItem)
    (hexc : EXCLUDED_PARAMS.contains name = false)
    (htype : prop.type = none) (hallOf : prop.allOf = some l)
    (henum : prop.enum = none) (hdef : prop.default = none)
    (hdesc : prop.description = none) :
    ∃ param, convertSchemaProperty name prop required (some comps) = some param ∧
      param.default = firstResolvedDefault comps l ∧
      param.description = firstResolvedDescription comps l ∧
      param.type = (lastResolvedType comps l).getD "string" ∧
      param.enum = lastResolvedEnum comps l := by
  have hst : ∀ st : AllOfState,
      st = (⟨"string", none, none, none⟩ : AllOfState) →
      (l.foldl (allOfStep comps) st).resolvedDefault = firstResolvedDefault comps l ∧
      (l.foldl (allOfStep comps) st).resolvedDescription = firstResolvedDescription comps l ∧
      (l.foldl (allOfStep comps) st).type = (lastResolvedType comps l).getD "string" ∧
      (l.foldl (allOfStep comps) st).enumValues = lastResolvedEnum comps l := by
    rintro st rfl
    refine ⟨?_, ?_, ?_, ?_⟩
    · rw [foldl_allOfStep_resolvedDefault]; simp [optOr]
    · rw [foldl_allOfStep_resolvedDescription]
      simp [truthyStr, optOr_none_right]
    · rw [foldl_allOfStep_type]
    · rw [foldl_allOfStep_enumValues, optOr_none_right]
  simp only [convertSchemaProperty, hexc, htype, hallOf, henum, hdef, hdesc]
  by_cases hl : 0 < l.length
  · obtain ⟨h1, h2, h3, h4⟩ := hst _ rfl
    simp [hl, h1, h2, h3, h4, truthyStr]
  · have hl0 : l = [] := List.length_eq_zero.mp (by omega)
    subst hl0
    simp [firstResolvedDefault, firstResolvedDescription, lastResolvedType,
      lastResolvedEnum, truthyStr]

/-- C2 counterexample: with `allOf` resolving `A` (integer, enum `[1]`,
default `7`, description `first`) then `B` (number, enum `[2]`, default `9`,
description `second`), the first resolved definition supplies
type `integer` and enum `[1]`, yet the converted parameter carries type
`number` and enum `[2]` from the second — type and enum are NOT first-wins;
only default and description are. -/
theorem c2_counterexample :
    resolveRef "#/components/schemas/A" c2Components = some c2DefA ∧
    c2DefA.type = some "integer" ∧
    c2DefA.enum = some [JVal.jnum 1] ∧
    (convertSchemaProperty "style" c2Prop [] (some c2Components)).map
        (fun p => p.type) = some "number" ∧
    (convertSchemaProperty "style" c2Prop [] (some c2Components)).map
        (fun p => p.enum) = some (some [JVal.jnum 2]) ∧
    (convertSchemaProperty "style" c2Prop [] (some c2Components)).map
        (fun p => p.default) = some (some (JVal.jnum 7)) ∧
    (convertSchemaProperty "style" c2Prop [] (some c2Components)).map
        (fun p => p.description) = some (some "first") := by
  decide

/-- C2 witness: the amended theorem applied to the two-reference instance. -/
theorem c2_witness :
    ∃ param, convertSchemaProperty "style" c2Prop [] (some c2Components) = some param ∧
      param.default = firstResolvedDefault c2Components c2AllOfItems ∧
      param.description = firstResolvedDescription c2Components c2AllOfItems ∧
      param.type = (lastResolvedType c2Components c2AllOfItems).getD "string" ∧
      param.enum = lastResolvedEnum c2Components c2AllOfItems :=
  c2_allOf_merge_direction "style" c2Prop [] c2Components c2AllOfItems
    (by decide) (by decide) rfl (by decide) (by decide) (by decide)

/-! ## Claim C3 — response status taxonomy -/

/-- Provider-result shaping gives status 500 whenever the body is a failure. -/
theorem shapeProviderResult_fail_500 (r : GenerationOutput)
    (h : (shapeProviderResult r).2.success = false) :
    (shapeProviderResult r).1 = 500 := by
  unfold shapeProviderResult at *
  by_cases hs : r.success = false
  · rw [if_pos hs]
  · rw [if_neg hs] at h ⊢
    cases ho : r.outputs.bind List.head? with
    | none => rfl
    | some o =>
        by_cases hd : o.data = ""
        · simp [hd]
        · by_cases ht : o.type = "video"
          · simp [ho, hd, ht] at h
          · simp [ho, hd, ht, mkImageResponse] at h

/-- The Gemini shaping fails only with status 500. -/
theorem geminiResponse_fail_500 (g : GeminiOutcome)
    (h : (generateWithGeminiResponse g).2.success = false) :
    (generateWithGeminiResponse g).1 = 500 := by
  cases g <;> simp_all [generateWithGeminiResponse, mkImageResponse]

/-- Appending a non-empty string never yields the empty string. -/
theorem append_ne_empty (a b : String) (hb : b.data ≠ []) : a ++ b ≠ "" := by
  intro h
  have hd : (a ++ b).data = [] := by rw [h]
  rw [String.data_append] at hd
  exact hb (List.append_eq_nil.mp hd).2

/-- C3 (amended): every failure response of POST /generate carries a status
in `{400, 401, 429, 500}`: validation failures yield 400 and a missing
Replicate credential 401; but a provider-signalled rate limit (HTTP 429 from
Replicate or fal) surfaces through the adapter as `success: false` and is
answered with status 500 (its body's error text carries the rate-limit
message), NOT 429 — status 429 is produced only by the catch-all handler
when a thrown error's message contains "429" (the Gemini SDK path). -/
theorem c3_response_status_taxonomy :
    (∀ (req : PostRequestModel) (rr fr : GenerationOutput) (g : GeminiOutcome)
       (th : Option String),
       (postRoute req rr fr g th).2.success = false →
       (postRoute req rr fr g th).1 = 400 ∨ (postRoute req rr fr g th).1 = 401 ∨
       (postRoute req rr fr g th).1 = 429 ∨ (postRoute req rr fr g th).1 = 500) ∧
    (∀ (req : PostRequestModel) (name detail : String) (fr : GenerationOutput)
       (g : GeminiOutcome),
       req.provider = some "replicate" → req.hasReplicateKey = true →
       (hasPromptReq req = true ∨ hasImagesReq req = true ∨ hasImageInputsReq req = true) →
       postRoute req (replicateCreateError name 429 detail) fr g none =
         (500, mkErrorResponse (name ++ ": Rate limit exceeded. Try again in a moment."))) ∧
    (∀ (req : PostRequestModel) (name detail : String) (hk : Bool)
       (rr : GenerationOutput) (g : GeminiOutcome),
       req.provider = some "fal" →
       (hasPromptReq req = true ∨ hasImagesReq req = true ∨ hasImageInputsReq req = true) →
       (postRoute req rr (falHttpError name hk 429 detail) g none).1 = 500) ∧
    (∀ (req : PostRequestModel) (rr fr : GenerationOutput) (g : GeminiOutcome)
       (msg : String), strIncludes msg "429" = true →
       postRoute req rr fr g (some msg) =
         (429, mkErrorResponse "Rate limit reached. Please wait and try again.")) ∧
    (∀ (req : PostRequestModel) (rr fr : GenerationOutput) (g : GeminiOutcome),
       ¬(hasPromptReq req = true ∨ hasImagesReq req = true ∨ hasImageInputsReq req = true) →
       (postRoute req rr fr g none).1 = 400) ∧
    (∀ (req : PostRequestModel) (rr fr : GenerationOutput) (g : GeminiOutcome),
       (hasPromptReq req = true ∨ hasImagesReq req = true ∨ hasImageInputsReq req = true) →
       req.provider = some "replicate" → req.hasReplicateKey = false →
       (postRoute req rr fr g none).1 = 401) := by
  refine ⟨?_, ?_, ?_, ?_, ?_, ?_⟩
  · intro req rr fr g th
    unfold postRoute
    cases th with
    | some msg =>
        intro _
        by_cases h : strIncludes msg "429" = true
        · right; right; left; simp [h]
        · right; right; right; simp [h]
    | none =>
        by_cases hval : (hasPromptReq req = true ∨ hasImagesReq req = true ∨
            hasImageInputsReq req = true)
        · rw [if_neg (not_not_intro hval)]
          by_cases hp : req.provider.getD "gemini" = "replicate"
          · rw [if_pos hp]
            by_cases hk : req.hasReplicateKey = true
            · rw [if_neg (not_not_intro hk)]
              intro hf
              right; right; right
              exact shapeProviderResult_fail_500 rr hf
            · rw [if_pos hk]
              intro _; right; left; rfl
          · rw [if_neg hp]
            by_cases hfal : req.provider.getD "gemini" = "fal"
            · rw [if_pos hfal]
              intro hf
              right; right; right
              exact shapeProviderResult_fail_500 fr hf
            · rw [if_neg hfal]
              by_cases hg : req.hasGeminiKey = true
              · rw [if_neg (not_not_intro hg)]
                intro hf
                right; right; right
                exact geminiResponse_fail_500 g hf
              · rw [if_pos hg]
                intro _; right; right; right; rfl
        · rw [if_pos hval]
          intro _; left; rfl
  · intro req name detail fr g hp hk hval
    unfold postRoute
    rw [if_neg (not_not_intro hval)]
    simp only [hp, Option.getD_some]
    rw [if_pos trivial, if_neg (not_not_intro hk)]
    have hmsg : name ++ ": Rate limit exceeded. Try again in a moment." ≠ "" :=
      append_ne_empty _ _ (by decide)
    simp [shapeProviderResult, replicateCreateError, jsOrStr, hmsg]
  · intro req name detail hk rr g hp hval
    unfold postRoute
    rw [if_neg (not_not_intro hval)]
    simp only [hp, Option.getD_some]
    rw [if_neg (by decide), if_pos trivial]
    apply shapeProviderResult_fail_500
    by_cases hkk : hk = true <;>
      simp [falHttpError, mkErrorResponse, hkk, shapeProviderResult, jsOrStr]
  · intro req rr fr g msg h
    simp [postRoute, h]
  · intro req rr fr g hval
    unfold postRoute
    rw [if_pos hval]
  · intro req rr fr g hval hp hk
    unfold postRoute
    rw [if_neg (not_not_intro hval)]
    simp only [hp, Option.getD_some]
    rw [if_pos trivial, if_pos (by simp [hk])]

/-- C3 counterexample: a generation request whose provider (Replicate)
signals HTTP 429 is answered by POST /generate with status 500, not the
claimed 429. -/
theorem c3_counterexample :
    (postRoute ⟨some "p", [], none, some "replicate", true, false⟩
       (replicateCreateError "M" 429 "detail") ⟨false, none, none⟩
       GeminiOutcome.neitherFound none).1 = 500 ∧
    (postRoute ⟨some "p", [], none, some "replicate", true, false⟩
       (replicateCreateError "M" 429 "detail") ⟨false, none, none⟩
       GeminiOutcome.neitherFound none).1 ≠ 429 := by
  decide

/-- C3 witness: the amended theorem applied at concrete requests. -/
theorem c3_witness :
    postRoute ⟨some "p", [], none, some "replicate", true, false⟩
      (replicateCreateError "M" 429 "detail") ⟨false, none, none⟩
      GeminiOutcome.neitherFound none =
      (500, mkErrorResponse ("M" ++ ": Rate limit exceeded. Try again in a moment.")) ∧
    postRoute ⟨some "p", [], none, some "gemini", false, true⟩
      ⟨false, none, none⟩ ⟨false, none, none⟩ GeminiOutcome.neitherFound
      (some "got error 429 from upstream") =
      (429, mkErrorResponse "Rate limit reached. Please wait and try again.") ∧
    (postRoute ⟨none, [], none, some "replicate", true, false⟩
      ⟨false, none, none⟩ ⟨false, none, none⟩ GeminiOutcome.neitherFound none).1 = 400 :=
  ⟨c3_response_status_taxonomy.2.1 ⟨some "p", [], none, some "replicate", true, false⟩
     "M" "detail" ⟨false, none, none⟩ GeminiOutcome.neitherFound rfl rfl
     (Or.inl (by decide)),
   c3_response_status_taxonomy.2.2.2.1 ⟨some "p", [], none, some "gemini", false, true⟩
     ⟨false, none, none⟩ ⟨false, none, none⟩ GeminiOutcome.neitherFound
     "got error 429 from upstream" (by decide),
   c3_response_status_taxonomy.2.2.2.2.1 ⟨none, [], none, some "replicate", true, false⟩
     ⟨false, none, none⟩ ⟨false, none, none⟩ GeminiOutcome.neitherFound (by decide)⟩

/-! ## Claim C4 — image-substring classification -/

/-- Parameters collected by the classification loop come from properties
that are not image inputs, and keep their names. -/
theorem collectProps_params_mem (required : List String)
    (comps : Option (List (String × SchemaDef))) :
    ∀ (props : List (String × SchemaProp)) (par : ModelParameter),
      par ∈ (collectProps required comps props).1 →
      ∃ np ∈ props, isImageInput np.1 = false ∧ par.name = np.1 := by
  intro props
  induction props with
  | nil => intro par h; simp [collectProps] at h
  | cons np rest ih =>
      intro par h
      simp only [collectProps] at h
      by_cases hi : isImageInput np.1 = true
      · rw [if_pos hi] at h
        obtain ⟨mp, hmp, h1, h2⟩ := ih par h
        exact ⟨mp, List.mem_cons_of_mem _ hmp, h1, h2⟩
      · rw [if_neg hi] at h
        by_cases ht : isTextInput np.1 = true
        · rw [if_pos ht] at h
          obtain ⟨mp, hmp, h1, h2⟩ := ih par h
          exact ⟨mp, List.mem_cons_of_mem _ hmp, h1, h2⟩
        · rw [if_neg ht] at h
          cases hc : convertSchemaProperty np.1 np.2 required comps with
          | none =>
              rw [hc] at h
              obtain ⟨mp, hmp, h1, h2⟩ := ih par h
              exact ⟨mp, List.mem_cons_of_mem _ hmp, h1, h2⟩
          | some param =>
              rw [hc] at h
              rcases List.mem_cons.mp h with rfl | h'
              · refine ⟨np, List.mem_cons_self _ _, by simpa using hi, ?_⟩
                unfold convertSchemaProperty at hc
                by_cases he : EXCLUDED_PARAMS.contains np.1 = true
                · rw [if_pos he] at hc; exact absurd hc (by simp)
                · rw [if_neg he] at hc
                  simp only [Option.some.injEq] at hc
                  rw [← hc]
              · obtain ⟨mp, hmp, h1, h2⟩ := ih par h'
                exact ⟨mp, List.mem_cons_of_mem _ hmp, h1, h2⟩

/-- A property classified as an image input appears among the collected
inputs with type `image`. -/
theorem collectProps_inputs_mem (required : List String)
    (comps : Option (List (String × SchemaDef))) :
    ∀ (props : List (String × SchemaProp)) (name : String) (p : SchemaProp),
      (name, p) ∈ props → isImageInput name = true →
      ∃ inp ∈ (collectProps required comps props).2,
        inp.name = name ∧ inp.type = "image" := by
  intro props
  induction props with
  | nil => intro name p h _; simp at h
  | cons np rest ih =>
      intro name p h hi
      simp only [collectProps]
      rcases List.mem_cons.mp h with heq | h'
      · rw [show np = (name, p) from heq.symm]
        simp only []
        rw [if_pos (by simpa using hi)]
        exact ⟨⟨name, "image", required.contains name, toLabel name, p.description⟩,
          List.mem_cons_self _ _, rfl, rfl⟩
      · obtain ⟨inp, hinp, h1, h2⟩ := ih name p h' hi
        by_cases hi2 : isImageInput np.1 = true
        · rw [if_pos hi2]
          exact ⟨inp, List.mem_cons_of_mem _ hinp, h1, h2⟩
        · rw [if_neg hi2]
          by_cases ht : isTextInput np.1 = true
          · rw [if_pos ht]
            exact ⟨inp, List.mem_cons_of_mem _ hinp, h1, h2⟩
          · rw [if_neg ht]
            cases hc : convertSchemaProperty np.1 np.2 required comps with
            | none => exact ⟨inp, hinp, h1, h2⟩
            | some param => exact ⟨inp, hinp, h1, h2⟩

/-- A name containing the (lower-case) substring `image` is classified as an
image input. -/
theorem isImageInput_of_includes (name : String)
    (h : strIncludes name "image" = true) : isImageInput name = true := by
  unfold isImageInput
  rw [List.any_eq_true]
  exact ⟨"image_url", by simp [IMAGE_INPUT_PATTERNS], by simp [h]⟩

/-- C4 (amended): every schema property whose name contains the substring
`"image"` CASE-SENSITIVELY (all lower case, as the code's `includes` check
is case-sensitive) is classified as an image input and never appears in the
parameters output list.  The claim's "regardless of letter case" does not
hold — see the counterexample. -/
theorem c4_image_substring_classification (schema : InputSchema)
    (comps : Option (List (String × SchemaDef)))
    (props : List (String × SchemaProp)) (name : String) (p : SchemaProp)
    (hp : schema.properties = some props) (hmem : (name, p) ∈ props)
    (hinc : strIncludes name "image" = true) :
    (∃ inp ∈ (extractParametersFromSchema schema comps).inputs,
        inp.name = name ∧ inp.type = "image") ∧
    (∀ par ∈ (extractParametersFromSchema schema comps).parameters,
        par.name ≠ name) := by
  have hi : isImageInput name = true := isImageInput_of_includes name hinc
  constructor
  · unfold extractParametersFromSchema
    rw [hp]
    simp only
    obtain ⟨inp, hinp, h1, h2⟩ :=
      collectProps_inputs_mem (schema.required.getD []) comps props name p hmem hi
    exact ⟨inp, (mem_sortByComparator inputLe inp _).mpr hinp, h1, h2⟩
  · intro par hpar
    unfold extractParametersFromSchema at hpar
    rw [hp] at hpar
    simp only at hpar
    obtain ⟨np, hnp, hni, hname⟩ :=
      collectProps_params_mem (schema.required.getD []) comps props par
        ((mem_sortByComparator paramLe par _).mp hpar)
    intro hcontra
    have heq : np.1 = name := hname.symm.trans hcontra
    simp [heq, hi] at hni

/-- C4 counterexample: the property name `IMAGE` contains `image` case
aside (`toLowerCase` maps it to `image`), yet extraction classifies it as a
parameter, not an image input — the code's containment check is
case-sensitive. -/
theorem c4_counterexample :
    strToLower "IMAGE" = "image" ∧
    (extractParametersFromSchema c4Schema none).parameters.map (fun p => p.name) =
      ["IMAGE"] ∧
    (extractParametersFromSchema c4Schema none).inputs = [] := by
  decide

/-- C4 witness: the amended theorem applied to a lower-case `image_url`
property. -/
theorem c4_witness :
    (∃ inp ∈ (extractParametersFromSchema c4WitnessSchema none).inputs,
        inp.name = "image_url" ∧ inp.type = "image") ∧
    (∀ par ∈ (extractParametersFromSchema c4WitnessSchema none).parameters,
        par.name ≠ "image_url") :=
  c4_image_substring_classification c4WitnessSchema none
    [("image_url", emptyProp)] "image_url" emptyProp rfl (by decide) (by decide)

/-! ## Claim C5 — input-mapper candidate scan order -/

/-- C5 (amended): for each generic name the mapper scans the candidate list
in order and, for EACH candidate, first tries an exact property-name match
and then the case-insensitive bidirectional substring fallback for that same
candidate, before moving to the next candidate; the first success resolves
the generic name and nothing further is considered.  (An earlier candidate's
substring match therefore takes precedence over a later candidate's exact
match; exact matching is not completed across the whole candidate list
first.) -/
theorem c5_candidate_scan_order (props : List String) (pattern : String)
    (rest : List String) :
    (props.contains pattern = true →
       findPatternMatch props (pattern :: rest) = some pattern) ∧
    (props.contains pattern = false →
       ∀ m, substrCandidateMatch props pattern = some m →
         findPatternMatch props (pattern :: rest) = some m) ∧
    (props.contains pattern = false → substrCandidateMatch props pattern = none →
       findPatternMatch props (pattern :: rest) = findPatternMatch props rest) ∧
    findPatternMatch props [] = none := by
  refine ⟨?_, ?_, ?_, rfl⟩
  · intro h
    unfold findPatternMatch
    rw [if_pos h]
  · intro h m hm
    unfold findPatternMatch
    rw [if_neg (by rw [h]; exact Bool.false_ne_true), hm]
  · intro h hm
    unfold findPatternMatch
    rw [if_neg (by rw [h]; exact Bool.false_ne_true), hm]
    cases rest <;> rfl

/-- C5 counterexample: with properties `{text_style, caption}` the generic
name `prompt` resolves to `text_style` — the substring fallback of the
earlier candidate `text` fires although the later candidate `caption` has an
exact property match, refuting "only if no candidate matches exactly does it
fall back". -/
theorem c5_counterexample :
    assocLookup "prompt" INPUT_PATTERNS =
      some ["prompt", "text", "caption", "input_text", "description", "query"] ∧
    assocLookup "prompt" (getInputMappingFromSchema ["text_style", "caption"]) =
      some "text_style" ∧
    List.contains ["text_style", "caption"] "caption" = true ∧
    List.contains ["prompt", "text", "caption", "input_text", "description", "query"]
      "caption" = true ∧
    "text_style" ≠ "caption" := by
  decide

/-- C5 witness: the amended theorem applied to the `seed` candidates. -/
theorem c5_witness :
    findPatternMatch ["seed"] ("seed" :: ["random_seed", "noise_seed"]) = some "seed" ∧
    findPatternMatch ["noise_seed"] ("seed" :: ["random_seed", "noise_seed"]) =
      some "noise_seed" :=
  ⟨(c5_candidate_scan_order ["seed"] "seed" ["random_seed", "noise_seed"]).1 (by decide),
   (c5_candidate_scan_order ["noise_seed"] "seed" ["random_seed", "noise_seed"]).2.1
     (by decide) "noise_seed" (by decide)⟩

/-! ## Claim C6 — schema cache TTL -/

/-- The fetch path never reports a cache hit. -/
theorem getRouteFetch_cached_false (provider : String) (hasKey : Bool)
    (now : Nat) (cache : List (String × CacheEntry)) (key : String)
    (fetch : FetchOutcome) (p : List ModelParameter) (i : List ModelInput) :
    (getRouteFetch provider hasKey now cache key fetch).1 ≠
      GetResponse.success p i true := by
  unfold getRouteFetch
  by_cases h : provider = "replicate" ∧ ¬hasKey = true
  · rw [if_pos h]; simp
  · rw [if_neg h]; cases fetch <;> simp

/-- The fetch path on a successful fetch with the credential present. -/
theorem getRouteFetch_ok (provider : String) (hasKey : Bool) (now : Nat)
    (cache : List (String × CacheEntry)) (key : String) (r : ExtractedSchema)
    (hkey : provider = "fal" ∨ hasKey = true) :
    getRouteFetch provider hasKey now cache key (FetchOutcome.ok r) =
      (GetResponse.success r.parameters r.inputs false,
       assocSet key ⟨r.parameters, r.inputs, now⟩ cache) := by
  unfold getRouteFetch
  have hcond : ¬(provider = "replicate" ∧ ¬hasKey = true) := by
    rcases hkey with h | h
    · rintro ⟨h2, _⟩; rw [h] at h2; exact absurd h2 (by decide)
    · rintro ⟨_, h2⟩; exact h2 h
  rw [if_neg hcond]

/-- C6 (confirmed): a schema lookup is served from the cache — response
`cached: true` with the stored parameters and inputs unchanged — exactly
when the stored entry exists and `now - timestamp < CACHE_TTL` (strictly);
once the TTL has elapsed (or no entry exists), the entry is treated as
absent and, when the required credential is present and the fresh fetch
succeeds, the response carries `cached: false` with the freshly fetched
lists and the entry is replaced wholesale with the new timestamp. -/
theorem c6_schema_cache_ttl (provider modelId : String) (hasKey : Bool)
    (now : Nat) (cache : List (String × CacheEntry)) (fetch : FetchOutcome)
    (hprov : provider = "replicate" ∨ provider = "fal") :
    ((∃ p i, (getRoute provider modelId hasKey now cache fetch).1 =
        GetResponse.success p i true) ↔
      (∃ e, assocLookup (provider ++ ":" ++ modelId) cache = some e ∧
        now - e.timestamp < CACHE_TTL)) ∧
    (∀ e, assocLookup (provider ++ ":" ++ modelId) cache = some e →
      now - e.timestamp < CACHE_TTL →
      getRoute provider modelId hasKey now cache fetch =
        (GetResponse.success e.parameters e.inputs true, cache)) ∧
    (∀ r, (∀ e, assocLookup (provider ++ ":" ++ modelId) cache = some e →
        ¬(now - e.timestamp < CACHE_TTL)) →
      (provider = "fal" ∨ hasKey = true) → fetch = FetchOutcome.ok r →
      getRoute provider modelId hasKey now cache fetch =
        (GetResponse.success r.parameters r.inputs false,
         assocSet (provider ++ ":" ++ modelId)
           ⟨r.parameters, r.inputs, now⟩ cache)) := by
  have hcond : ¬¬(provider = "replicate" ∨ provider = "fal") := not_not_intro hprov
  refine ⟨?_, ?_, ?_⟩
  · cases hl : assocLookup (provider ++ ":" ++ modelId) cache with
    | some e =>
        by_cases hts : now - e.timestamp < CACHE_TTL
        · have heq : (getRoute provider modelId hasKey now cache fetch).1 =
              GetResponse.success e.parameters e.inputs true := by
            unfold getRoute
            rw [if_neg hcond]
            simp [hl, hts]
          rw [heq]
          constructor
          · intro _; exact ⟨e, rfl, hts⟩
          · intro _; exact ⟨e.parameters, e.inputs, rfl⟩
        · have heq : (getRoute provider modelId hasKey now cache fetch).1 =
              (getRouteFetch provider hasKey now cache
                (provider ++ ":" ++ modelId) fetch).1 := by
            unfold getRoute
            rw [if_neg hcond]
            simp [hl, hts]
          rw [heq]
          constructor
          · rintro ⟨p, i, hsucc⟩
            exact absurd hsucc (getRouteFetch_cached_false _ _ _ _ _ _ _ _)
          · rintro ⟨e', he', hts'⟩
            rw [Option.some.injEq] at he'
            rw [← he'] at hts'
            exact absurd hts' hts
    | none =>
        have heq : (getRoute provider modelId hasKey now cache fetch).1 =
            (getRouteFetch provider hasKey now cache
              (provider ++ ":" ++ modelId) fetch).1 := by
          unfold getRoute
          rw [if_neg hcond]
          simp [hl]
        rw [heq]
        constructor
        · rintro ⟨p, i, hsucc⟩
          exact absurd hsucc (getRouteFetch_cached_false _ _ _ _ _ _ _ _)
        · rintro ⟨e', he', _⟩
          exact absurd he' (by simp)
  · intro e hl hts
    unfold getRoute
    rw [if_neg hcond]
    simp [hl, hts]
  · intro r hstale hkey hfetch
    have heq : getRoute provider modelId hasKey now cache fetch =
        getRouteFetch provider hasKey now cache
          (provider ++ ":" ++ modelId) fetch := by
      unfold getRoute
      rw [if_neg hcond]
      cases hl : assocLookup (provider ++ ":" ++ modelId) cache with
      | some e => simp [hl, hstale e hl]
      | none => simp [hl]
    rw [heq, hfetch]
    exact getRouteFetch_ok provider hasKey now cache _ r hkey

/-- C6 witness: a fresh entry is served from the cache; a stale one is
replaced by the fetched result with `cached: false`. -/
theorem c6_witness :
    getRoute "fal" "m" false 1 c6Cache (FetchOutcome.ok ⟨[], []⟩) =
      (GetResponse.success [] [] true, c6Cache) ∧
    getRoute "fal" "m" false (CACHE_TTL + 5) c6Cache (FetchOutcome.ok ⟨[], []⟩) =
      (GetResponse.success [] [] false,
       assocSet ("fal" ++ ":" ++ "m") ⟨[], [], CACHE_TTL + 5⟩ c6Cache) :=
  ⟨(c6_schema_cache_ttl "fal" "m" false 1 c6Cache (FetchOutcome.ok ⟨[], []⟩)
      (Or.inr rfl)).2.1 ⟨[], [], 0⟩ (by decide) (by decide),
   (c6_schema_cache_ttl "fal" "m" false (CACHE_TTL + 5) c6Cache
      (FetchOutcome.ok ⟨[], []⟩) (Or.inr rfl)).2.2 ⟨[], []⟩
     (by intro e he; simp [c6Cache, assocLookup] at he; rw [← he]; decide)
     (Or.inl rfl) rfl⟩

/-! ## Claim C7 — poll loop timeout and failure -/

/-- A trace that stays non-terminal and reaches the ceiling times out. -/
theorem pollLoop_timeout :
    ∀ (trace : List (Nat × PollOutcome)) (initial : Prediction),
      isTerminalStatus initial.status = false →
      (∀ e ∈ trace, ∃ p, e.2 = PollOutcome.ok p ∧ isTerminalStatus p.status = false) →
      (∃ e ∈ trace, maxWaitTime < e.1) →
      pollLoop initial trace = PollExit.timeout := by
  intro trace
  induction trace with
  | nil => intro initial _ _ hex; simp at hex
  | cons e rest ih =>
      intro initial hnt hall hex
      obtain ⟨elapsed, out⟩ := e
      simp only [pollLoop]
      rw [if_neg (by simp [hnt])]
      by_cases hel : maxWaitTime < elapsed
      · rw [if_pos hel]
      · rw [if_neg hel]
        obtain ⟨p, hp, hpnt⟩ := hall (elapsed, out) (List.mem_cons_self _ _)
        simp only at hp
        rw [hp]
        apply ih p hpnt
        · intro e' he'; exact hall e' (List.mem_cons_of_mem _ he')
        · rcases hex with ⟨e', he', hgt⟩
          rcases List.mem_cons.mp he' with heq | hmem
          · rw [heq] at hgt; exact absurd hgt hel
          · exact ⟨e', hmem, hgt⟩

/-- C7 (confirmed): in the asynchronous polling adapter, a job that never
reaches a terminal status (every successful poll stays non-terminal) before
the elapsed wall-clock time exceeds the 5-minute ceiling produces a timeout
failure whose message names the model; a job whose loop exits at terminal
status `failed` produces a provider failure carrying the provider's stated
reason behind the model name; and an already-terminal status stops the loop
at once, regardless of the clock. -/
theorem c7_poll_timeout_and_failure (modelName : String) :
    (∀ (initial : Prediction) (trace : List (Nat × PollOutcome)),
       isTerminalStatus initial.status = false →
       (∀ e ∈ trace, ∃ p, e.2 = PollOutcome.ok p ∧ isTerminalStatus p.status = false) →
       (∃ e ∈ trace, maxWaitTime < e.1) →
       replicatePollPhase modelName initial trace =
         ReplicatePollResult.failure (modelName ++
           ": Generation timed out after 5 minutes. Video models may take longer - try again.")) ∧
    (∀ (initial : Prediction) (trace : List (Nat × PollOutcome)) (p : Prediction),
       pollLoop initial trace = PollExit.terminal p → p.status = "failed" →
       replicatePollPhase modelName initial trace =
         ReplicatePollResult.failure (modelName ++ ": " ++ failureReasonOf p)) ∧
    (∀ (initial : Prediction) (trace : List (Nat × PollOutcome)),
       isTerminalStatus initial.status = true →
       pollLoop initial trace = PollExit.terminal initial) := by
  refine ⟨?_, ?_, ?_⟩
  · intro initial trace hnt hall hex
    unfold replicatePollPhase
    rw [pollLoop_timeout trace initial hnt hall hex]
  · intro initial trace p hterm hfail
    unfold replicatePollPhase
    rw [hterm]
    simp [hfail]
  · intro initial trace hterm
    cases trace with
    | nil => simp [pollLoop, hterm]
    | cons e rest =>
        obtain ⟨elapsed, out⟩ := e
        simp [pollLoop, hterm]

/-- C7 witness: a run past the ceiling times out naming the model; a failed
prediction surfaces the provider's reason. -/
theorem c7_witness :
    replicatePollPhase "M" processingPrediction
        [(1000, PollOutcome.ok processingPrediction),
         (300001, PollOutcome.ok processingPrediction)] =
      ReplicatePollResult.failure
        ("M" ++ ": Generation timed out after 5 minutes. Video models may take longer - try again.") ∧
    replicatePollPhase "M" ⟨"failed", some "boom"⟩ [] =
      ReplicatePollResult.failure ("M" ++ ": " ++ failureReasonOf ⟨"failed", some "boom"⟩) ∧
    pollLoop (⟨"succeeded", none⟩ : Prediction) [(999999, PollOutcome.ok processingPrediction)] =
      PollExit.terminal ⟨"succeeded", none⟩ :=
  ⟨(c7_poll_timeout_and_failure "M").1 processingPrediction
     [(1000, PollOutcome.ok processingPrediction),
      (300001, PollOutcome.ok processingPrediction)]
     (by decide)
     (by
       intro e he
       rcases List.mem_cons.mp he with heq | he2
       · exact ⟨processingPrediction, by rw [heq], by decide⟩
       · rcases List.mem_cons.mp he2 with heq2 | he3
         · exact ⟨processingPrediction, by rw [heq2], by decide⟩
         · simp at he3)
     ⟨(300001, PollOutcome.ok processingPrediction), by simp, by decide⟩,
   (c7_poll_timeout_and_failure "M").2.1 ⟨"failed", some "boom"⟩ [] ⟨"failed", some "boom"⟩
     (by decide) rfl,
   (c7_poll_timeout_and_failure "M").2.2 ⟨"succeeded", none⟩
     [(999999, PollOutcome.ok processingPrediction)] (by decide)⟩

/-! ## Claim C8 — video size threshold -/

/-- C8 (confirmed): for an output whose content type classifies it as video,
a byte length strictly above the 20 MB threshold yields an output record
whose `data` is the remote URL verbatim, while a byte length at or below the
threshold yields a `data:` URI whose content-type prefix is the fetched
content type; and given the same fetched content type, the fal adapter's
branch produces the identical record whether or not its extra video-model
flag is set. -/
theorem c8_video_size_threshold (url ct : String) (bytes : List Nat)
    (hv : strStartsWith ct "video/" = true) :
    (VIDEO_URL_THRESHOLD < bytes.length →
       replicateMediaOutput url (some ct) bytes =
         ⟨true, none, some [⟨"video", url, url⟩]⟩) ∧
    (bytes.length ≤ VIDEO_URL_THRESHOLD →
       replicateMediaOutput url (some ct) bytes =
         ⟨true, none,
          some [⟨"video", "data:" ++ ct ++ ";base64," ++ base64Encode bytes, url⟩]⟩) ∧
    (falMediaOutput false url (some ct) bytes = replicateMediaOutput url (some ct) bytes) ∧
    (falMediaOutput true url (some ct) bytes = replicateMediaOutput url (some ct) bytes) := by
  have hne : ¬(ct = "") := by
    intro h
    rw [h] at hv
    exact absurd hv (by decide)
  have hct : jsOrStr (some ct) "image/png" = ct := by simp [jsOrStr, hne]
  have hctv : jsOrStr (some ct) "video/mp4" = ct := by simp [jsOrStr, hne]
  refine ⟨?_, ?_, ?_, ?_⟩
  · intro hlen
    simp [replicateMediaOutput, hct, hv, hlen]
  · intro hlen
    have hn : ¬(VIDEO_URL_THRESHOLD < bytes.length) := by omega
    simp [replicateMediaOutput, hct, hv, hn]
  · simp [replicateMediaOutput, falMediaOutput, hct, hv]
  · simp [replicateMediaOutput, falMediaOutput, hct, hctv, hv]

/-- C8 witness: an oversized video comes back as its bare URL; a small one
as a data URI with the content type as prefix; the fal branch agrees. -/
theorem c8_witness :
    replicateMediaOutput "http://u/v.mp4" (some "video/mp4")
        (List.replicate (VIDEO_URL_THRESHOLD + 1) 0) =
      ⟨true, none, some [⟨"video", "http://u/v.mp4", "http://u/v.mp4"⟩]⟩ ∧
    replicateMediaOutput "http://u/v.mp4" (some "video/mp4") [0, 1, 2] =
      ⟨true, none,
       some [⟨"video", "data:" ++ "video/mp4" ++ ";base64," ++ base64Encode [0, 1, 2],
             "http://u/v.mp4"⟩]⟩ ∧
    falMediaOutput true "http://u/v.mp4" (some "video/mp4") [0, 1, 2] =
      replicateMediaOutput "http://u/v.mp4" (some "video/mp4") [0, 1, 2] :=
  ⟨(c8_video_size_threshold "http://u/v.mp4" "video/mp4"
      (List.replicate (VIDEO_URL_THRESHOLD + 1) 0) (by decide)).1
     (by simp [List.length_replicate]),
   (c8_video_size_threshold "http://u/v.mp4" "video/mp4" [0, 1, 2] (by decide)).2.1
     (by decide),
   (c8_video_size_threshold "http://u/v.mp4" "video/mp4" [0, 1, 2] (by decide)).2.2.2⟩

/-! ## Claim C9 — only the first image is transmitted -/

/-- Looking up the key just set. -/
theorem assocLookup_assocSet_self {β : Type} (k : String) (v : β) :
    ∀ l : List (String × β), assocLookup k (assocSet k v l) = some v := by
  intro l
  induction l with
  | nil => simp [assocSet, assocLookup]
  | cons kv rest ih =>
      obtain ⟨k', v'⟩ := kv
      by_cases h : k' = k
      · simp [assocSet, assocLookup, h]
      · simp [assocSet, assocLookup, h, ih]

/-- Setting a different key does not affect a lookup. -/
theorem assocLookup_assocSet_other {β : Type} (t k : String) (v : β)
    (hne : k ≠ t) :
    ∀ l : List (String × β), assocLookup t (assocSet k v l) = assocLookup t l := by
  intro l
  induction l with
  | nil => simp [assocSet, assocLookup, hne]
  | cons kv rest ih =>
      obtain ⟨k', v'⟩ := kv
      by_cases h : k' = k
      · subst h
        simp [assocSet, assocLookup, hne, ih]
      · simp [assocSet, assocLookup, h, ih]

/-- A fold of key-value writes whose keys all differ from `t` leaves the
lookup of `t` unchanged. -/
theorem assocLookup_foldl_assocSet {β : Type} (t : String)
    (f : String × β → String) :
    ∀ (params : List (String × β)) (base : List (String × β)),
      (∀ kv ∈ params, f kv ≠ t) →
      assocLookup t
        (params.foldl (fun acc kv => assocSet (f kv) kv.2 acc) base) =
        assocLookup t base := by
  intro params
  induction params with
  | nil => intro base _; rfl
  | cons kv rest ih =>
      intro base hno
      simp only [List.foldl_cons]
      rw [ih _ (fun kv' h => hno kv' (List.mem_cons_of_mem _ h))]
      exact assocLookup_assocSet_other t _ _ (hno kv (List.mem_cons_self _ _)) base

/-- C9 (confirmed): in the no-`dynamicInputs` path of both HTTP adapters the
outgoing payload depends only on the FIRST element of the images list — it
is unchanged under replacing everything after the first image — and (when no
parameter write collides with the image field) the mapped image field holds
exactly that first image, so every image after the first is dropped and
never transmitted. -/
theorem c9_only_first_image_sent (paramMap : List (String × String))
    (prompt img0 : String) (rest rest' : List String)
    (params : List (String × JVal)) :
    (buildReplicatePredictionInput paramMap prompt (img0 :: rest) params =
       buildReplicatePredictionInput paramMap prompt (img0 :: rest') params) ∧
    (buildFalRequestBody paramMap prompt (img0 :: rest) params =
       buildFalRequestBody paramMap prompt (img0 :: rest') params) ∧
    ((∀ kv ∈ params, mappedKey paramMap kv.1 kv.1 ≠ mappedKey paramMap "image" "image") →
       assocLookup (mappedKey paramMap "image" "image")
         (buildReplicatePredictionInput paramMap prompt (img0 :: rest) params) =
         some (JVal.jstr img0)) ∧
    ((∀ kv ∈ params, mappedKey paramMap kv.1 kv.1 ≠ mappedKey paramMap "image" "image_url") →
       assocLookup (mappedKey paramMap "image" "image_url")
         (buildFalRequestBody paramMap prompt (img0 :: rest) params) =
         some (JVal.jstr img0)) := by
  refine ⟨rfl, rfl, ?_, ?_⟩
  · intro hno
    unfold buildReplicatePredictionInput buildProviderPayload
    rw [assocLookup_foldl_assocSet _ _ params _ hno]
    exact assocLookup_assocSet_self _ _ _
  · intro hno
    unfold buildFalRequestBody buildProviderPayload
    rw [assocLookup_foldl_assocSet _ _ params _ hno]
    exact assocLookup_assocSet_self _ _ _

/-- C9 witness: with three images only the first lands in the payload, and
dropping the trailing two leaves the payload unchanged. -/
theorem c9_witness :
    buildReplicatePredictionInput [] "p" ["i1", "i2", "i3"] [("seed", JVal.jnum 4)] =
      buildReplicatePredictionInput [] "p" ["i1"] [("seed", JVal.jnum 4)] ∧
    assocLookup (mappedKey [] "image" "image")
      (buildReplicatePredictionInput [] "p" ["i1", "i2", "i3"] [("seed", JVal.jnum 4)]) =
      some (JVal.jstr "i1") ∧
    assocLookup (mappedKey [] "image" "image_url")
      (buildFalRequestBody [] "p" ["i1", "i2", "i3"] [("seed", JVal.jnum 4)]) =
      some (JVal.jstr "i1") :=
  ⟨(c9_only_first_image_sent [] "p" "i1" ["i2", "i3"] [] [("seed", JVal.jnum 4)]).1,
   (c9_only_first_image_sent [] "p" "i1" ["i2", "i3"] [] [("seed", JVal.jnum 4)]).2.2.1
     (by decide),
   (c9_only_first_image_sent [] "p" "i1" ["i2", "i3"] [] [("seed", JVal.jnum 4)]).2.2.2
     (by decide)⟩

/-! ## Claim C10 — video response field selection -/

/-- C10 (confirmed): a successful generation whose first output is a video
with non-empty data is answered with status 200, `contentType = "video"`,
and exactly one of `video`/`videoUrl` set, decided by whether the data
starts with `"http"`; the POST handler routes both the Replicate and the fal
branch through this same shaping. -/
theorem c10_video_response_fields (result : GenerationOutput) (o : GenOutputItem)
    (hs : result.success = true) (ho : result.outputs.bind List.head? = some o)
    (hd : o.data ≠ "") (ht : o.type = "video") :
    (shapeProviderResult result).1 = 200 ∧
    (shapeProviderResult result).2.success = true ∧
    (shapeProviderResult result).2.contentType = some "video" ∧
    (shapeProviderResult result).2.image = none ∧
    (strStartsWith o.data "http" = true →
       (shapeProviderResult result).2.videoUrl = some o.data ∧
       (shapeProviderResult result).2.video = none) ∧
    (strStartsWith o.data "http" = false →
       (shapeProviderResult result).2.video = some o.data ∧
       (shapeProviderResult result).2.videoUrl = none) ∧
    (∀ (req : PostRequestModel) (fr : GenerationOutput) (g : GeminiOutcome),
       (hasPromptReq req = true ∨ hasImagesReq req = true ∨ hasImageInputsReq req = true) →
       req.provider = some "replicate" → req.hasReplicateKey = true →
       postRoute req result fr g none = shapeProviderResult result) ∧
    (∀ (req : PostRequestModel) (rr : GenerationOutput) (g : GeminiOutcome),
       (hasPromptReq req = true ∨ hasImagesReq req = true ∨ hasImageInputsReq req = true) →
       req.provider = some "fal" →
       postRoute req rr result g none = shapeProviderResult result) := by
  have hshape : shapeProviderResult result =
      (200,
       ⟨true, none, none,
        if strStartsWith o.data "http" = true then none else some o.data,
        if strStartsWith o.data "http" = true then some o.data else none,
        some "video"⟩) := by
    unfold shapeProviderResult
    rw [if_neg (by simp [hs])]
    simp [ho, hd, ht]
  refine ⟨?_, ?_, ?_, ?_, ?_, ?_, ?_, ?_⟩
  · rw [hshape]
  · rw [hshape]
  · rw [hshape]
  · rw [hshape]
  · intro hu; rw [hshape]; simp [hu]
  · intro hu; rw [hshape]; simp [hu]
  · intro req fr g hval hp hk
    unfold postRoute
    rw [if_neg (not_not_intro hval)]
    simp only [hp, Option.getD_some]
    rw [if_pos trivial, if_neg (not_not_intro hk)]
  · intro req rr g hval hp
    unfold postRoute
    rw [if_neg (not_not_intro hval)]
    simp only [hp, Option.getD_some]
    rw [if_neg (by decide), if_pos trivial]

/-- C10 witness: a URL-shaped video datum populates `videoUrl` and leaves
`video` unset, with `contentType` `"video"`. -/
theorem c10_witness :
    (shapeProviderResult c10Result).1 = 200 ∧
    (shapeProviderResult c10Result).2.contentType = some "video" ∧
    (shapeProviderResult c10Result).2.videoUrl = some "http://u" ∧
    (shapeProviderResult c10Result).2.video = none :=
  ⟨(c10_video_response_fields c10Result ⟨"video", "http://u", "http://u"⟩
      rfl rfl (by decide) rfl).1,
   (c10_video_response_fields c10Result ⟨"video", "http://u", "http://u"⟩
      rfl rfl (by decide) rfl).2.2.1,
   ((c10_video_response_fields c10Result ⟨"video", "http://u", "http://u"⟩
      rfl rfl (by decide) rfl).2.2.2.2.1 (by decide)).1,
   ((c10_video_response_fields c10Result ⟨"video", "http://u", "http://u"⟩
      rfl rfl (by decide) rfl).2.2.2.2.1 (by decide)).2⟩
